import Mathlib

/-!
Verification of the SimplyMaid core configuration / content-schema layer
(`src/core/origincore.ts`, with `themeSchema` from `src/core/origintheme.ts`).

The development shallowly embeds the Zod schema pipeline as executable
parsers over a JSON value type (a Zod `safeParse` either fails, `none`,
or succeeds with the normalized / defaulted value, `some v`), the
registries and the programmatic-SEO generator as explicit state passing,
and the two places where JavaScript object identity matters (template
instantiation, shared-section resolution) as heap/address models in
which sharing of mutable substructure is visible as address equality.
-/

/- ========================================================================
   JSON values.

   JavaScript numbers are modelled as rationals (no claim under scrutiny
   depends on floating-point rounding).  `undefined` does not occur as a
   value: an absent object key models an undefined property.
   ======================================================================== -/

inductive Json where
  | null : Json
  | bool (b : Bool) : Json
  | num (n : Rat) : Json
  | str (s : String) : Json
  | arr (xs : List Json) : Json
  | obj (kvs : List (String × Json)) : Json

instance : Inhabited Json := ⟨Json.null⟩

/-- JavaScript truthiness of a (parsed) JSON value. -/
def jsTruthy : Json → Bool
  | .null => false
  | .bool b => b
  | .num n => n != 0
  | .str s => s != ""
  | .arr _ => true
  | .obj _ => true

/-- First binding of key `k` in an object's key/value list (JS property read). -/
def lookupKey (kvs : List (String × Json)) (k : String) : Option Json :=
  match kvs with
  | [] => none
  | (k', v) :: rest => if k' = k then some v else lookupKey rest k

/-- JS object spread `{...o, k: v}`: replace the binding of `k` (or append it). -/
def setKey (kvs : List (String × Json)) (k : String) (v : Json) : List (String × Json) :=
  match kvs with
  | [] => [(k, v)]
  | (k', v') :: rest => if k' = k then (k, v) :: rest else (k', v') :: setKey rest k v

/- ========================================================================
   Zod-style object schemas.

   A schema is a function `Json → Option Json` returning the normalized
   value (defaults filled in) on success.  Strict objects (`.strict()`)
   reject unknown keys; plain objects (only `appConfigSchema` below)
   strip them.  Field specifications mirror Zod combinators:
   required, `.optional()`, `.default(d)`.
   ======================================================================== -/

inductive FSpec where
  | req (k : String) (p : Json → Option Json) : FSpec
  | opt (k : String) (p : Json → Option Json) : FSpec
  | dflt (k : String) (p : Json → Option Json) (d : Json) : FSpec

def FSpec.key : FSpec → String
  | .req k _ => k
  | .opt k _ => k
  | .dflt k _ _ => k

/-- Run the field specifications over an object's bindings, producing the
normalized bindings in schema order. -/
def runSpecs (kvs : List (String × Json)) : List FSpec → Option (List (String × Json))
  | [] => some []
  | .req k p :: rest =>
    match lookupKey kvs k with
    | none => none
    | some v =>
      match p v with
      | none => none
      | some v' => (runSpecs kvs rest).map (fun tl => (k, v') :: tl)
  | .opt k p :: rest =>
    match lookupKey kvs k with
    | none => runSpecs kvs rest
    | some v =>
      match p v with
      | none => none
      | some v' => (runSpecs kvs rest).map (fun tl => (k, v') :: tl)
  | .dflt k p d :: rest =>
    match lookupKey kvs k with
    | none => (runSpecs kvs rest).map (fun tl => (k, d) :: tl)
    | some v =>
      match p v with
      | none => none
      | some v' => (runSpecs kvs rest).map (fun tl => (k, v') :: tl)

def allowedKeys (specs : List FSpec) (kvs : List (String × Json)) : Bool :=
  kvs.all (fun kv => specs.any (fun s => s.key == kv.1))

/-- `z.object({...}).strict()`: unknown keys are a validation failure. -/
def strictObj (specs : List FSpec) : Json → Option Json
  | .obj kvs => if allowedKeys specs kvs then (runSpecs kvs specs).map .obj else none
  | _ => none

/-- `z.object({...})` without `.strict()`: unknown keys are stripped. -/
def stripObj (specs : List FSpec) : Json → Option Json
  | .obj kvs => (runSpecs kvs specs).map .obj
  | _ => none

/- Primitive schemas. -/

def pString : Json → Option Json
  | .str s => some (.str s)
  | _ => none

def pBool : Json → Option Json
  | .bool b => some (.bool b)
  | _ => none

def pNumber : Json → Option Json
  | .num n => some (.num n)
  | _ => none

/-- `z.number().min(lo).max(hi)`. -/
def pNumRange (lo hi : Rat) : Json → Option Json
  | .num n => if lo ≤ n ∧ n ≤ hi then some (.num n) else none
  | _ => none

/-- `z.number().int().positive()`. -/
def pIntPositive : Json → Option Json
  | .num n => if n.den = 1 ∧ 0 < n then some (.num n) else none
  | _ => none

/-- `z.enum([...])` (also used for `z.literal(v)` via a one-element list). -/
def pEnum (vs : List String) : Json → Option Json
  | .str s => if vs.contains s then some (.str s) else none
  | _ => none

def pLiteral (v : String) : Json → Option Json := pEnum [v]

/-- Split a character list on a separator (structurally recursive so that
concrete parses reduce definitionally). -/
def splitOnChar (sep : Char) : List Char → List (List Char)
  | [] => [[]]
  | c :: rest =>
    if c = sep then [] :: splitOnChar sep rest
    else
      match splitOnChar sep rest with
      | [] => [[c]]
      | g :: gs => (c :: g) :: gs

def hasSchemeSep : List Char → Bool
  | ':' :: '/' :: '/' :: _ => true
  | _ :: rest => hasSchemeSep rest
  | [] => false

/-- Approximation of Zod's `z.string().url()` check (`new URL(s)`): a
non-empty scheme followed by `://` somewhere in the string.  No claim in
this development depends on the exact shape of URL validation, only on its
determinism. -/
def isURL (s : String) : Bool :=
  match s.data with
  | [] => false
  | c :: cs => c != ':' && hasSchemeSep cs

def pURL : Json → Option Json
  | .str s => if isURL s then some (.str s) else none
  | _ => none

def isDigit (c : Char) : Bool := '0' ≤ c && c ≤ '9'

def allDigits (cs : List Char) : Bool := cs.all isDigit

def twoDigits (cs : List Char) : Bool := allDigits cs && cs.length == 2

def secondsOK (sec : List Char) : Bool :=
  match splitOnChar '.' sec with
  | [ss] => twoDigits ss
  | [ss, fr] => twoDigits ss && !fr.isEmpty && allDigits fr
  | _ => false

def timeOK (t : List Char) : Bool :=
  match splitOnChar 'Z' t with
  | [t', []] =>
    (match splitOnChar ':' t' with
     | [h, mi, sec] => twoDigits h && twoDigits mi && secondsOK sec
     | _ => false)
  | _ => false

def dateOK (d : List Char) : Bool :=
  match splitOnChar '-' d with
  | [y, m, dd] =>
    allDigits y && y.length == 4 && twoDigits m && twoDigits dd
  | _ => false

/-- Approximation of Zod's `z.string().datetime()` regex:
`YYYY-MM-DDTHH:MM:SS(.fraction)?Z`.  Again only determinism matters. -/
def isDatetime (s : String) : Bool :=
  match splitOnChar 'T' s.data with
  | [d, t] => dateOK d && timeOK t
  | _ => false

def pDatetime : Json → Option Json
  | .str s => if isDatetime s then some (.str s) else none
  | _ => none

/-- `z.unknown()`: accepts anything unchanged. -/
def pUnknown : Json → Option Json := fun j => some j

/-- `z.tuple([z.number(), z.number(), z.number()])` (the theme's color tuples). -/
def pTuple3Num : Json → Option Json
  | .arr [.num a, .num b, .num c] => some (.arr [.num a, .num b, .num c])
  | _ => none

/-- `z.array(p)`: element-wise parse. -/
def mapMList (p : Json → Option Json) : List Json → Option (List Json)
  | [] => some []
  | x :: xs =>
    match p x with
    | none => none
    | some y => (mapMList p xs).map (fun ys => y :: ys)

def pArray (p : Json → Option Json) : Json → Option Json
  | .arr xs => (mapMList p xs).map .arr
  | _ => none

/-- `z.record(p)`: parse every value of the object; keys are kept. -/
def mapMPairs (p : Json → Option Json) : List (String × Json) → Option (List (String × Json))
  | [] => some []
  | (k, v) :: rest =>
    match p v with
    | none => none
    | some v' => (mapMPairs p rest).map (fun tl => (k, v') :: tl)

def pRecord (p : Json → Option Json) : Json → Option Json
  | .obj kvs => (mapMPairs p kvs).map .obj
  | _ => none

/- ========================================================================
   Schemas of `origincore.ts` and `origintheme.ts`, translated field by
   field.  Each `...Specs` list is in source shape order, so normalized
   output binding order follows the source schema.
   ======================================================================== -/

/- Fields & Sections (origincore section 11). -/

def fieldFormatEnum : List String := ["markdown", "html"]

def textFieldSpecs : List FSpec :=
  [.req "id" pString, .req "type" (pLiteral "text"), .req "value" pString]

def richTextFieldSpecs : List FSpec :=
  [.req "id" pString, .req "type" (pLiteral "richText"), .req "value" pString,
   .req "format" (pEnum fieldFormatEnum)]

def imageOptimizationSpecs : List FSpec :=
  [.opt "quality" pNumber, .opt "format" (pEnum ["webp", "avif", "jpeg"]),
   .opt "sizes" (pArray pString), .opt "loading" (pEnum ["eager", "lazy"])]

def imageFieldSpecs : List FSpec :=
  [.req "id" pString, .req "type" (pLiteral "image"), .req "src" pURL, .req "alt" pString,
   .opt "width" pNumber, .opt "height" pNumber,
   .opt "optimization" (strictObj imageOptimizationSpecs)]

def ctaFieldSpecs : List FSpec :=
  [.req "id" pString, .req "type" (pLiteral "cta"), .req "text" pString, .req "href" pURL,
   .opt "variant" (pEnum ["primary", "secondary", "ghost"]),
   .opt "size" (pEnum ["sm", "md", "lg", "icon"]),
   .opt "icon" pString, .opt "target" (pEnum ["_blank", "_self"])]

def formFieldEntrySpecs : List FSpec :=
  [.req "name" pString, .req "label" pString,
   .req "type" (pEnum ["text", "email", "tel", "textarea"]),
   .req "required" pBool, .opt "placeholder" pString]

def formFieldSpecs : List FSpec :=
  [.req "id" pString, .req "type" (pLiteral "form"),
   .req "fields" (pArray (strictObj formFieldEntrySpecs))]

def serviceFieldSpecs : List FSpec :=
  [.req "id" pString, .req "type" (pLiteral "service"), .req "name" pString,
   .req "description" pString, .req "price" pNumber, .req "duration" pNumber,
   .opt "image" pURL]

def aiPromptFieldSpecs : List FSpec :=
  [.req "id" pString, .req "type" (pLiteral "aiPrompt"), .req "template" pString,
   .dflt "variables" (pRecord pString) (.obj []),
   .dflt "constraints" (pArray pString) (.arr []),
   .dflt "expectedFormat" pString (.str "markdown"),
   .dflt "fallbackStrategy" pString (.str "retry")]

/-- The discriminated-union variants of `fieldSchema`, keyed by the value of
the `type` tag (origincore 281-319).  Zod resolves the tag first and then
parses against the single matching variant. -/
def fieldVariants : List (String × List FSpec) :=
  [("text", textFieldSpecs), ("richText", richTextFieldSpecs), ("image", imageFieldSpecs),
   ("cta", ctaFieldSpecs), ("form", formFieldSpecs), ("service", serviceFieldSpecs),
   ("aiPrompt", aiPromptFieldSpecs)]

/-- `fieldSchema`: discriminated union on the `type` tag.  If the tag is
missing or matches no variant, parsing fails. -/
def fieldSchema (j : Json) : Option Json :=
  match j with
  | .obj kvs =>
    match lookupKey kvs "type" with
    | some (.str t) =>
      match fieldVariants.find? (fun v => v.1 == t) with
      | some v => strictObj v.2 j
      | none => none
    | _ => none
  | _ => none

def sectionTypeEnum : List String :=
  ["hero", "text", "form", "gallery", "services", "aiGenerated", "clusteredContent",
   "reviewsMarquee", "howItWorks", "ourServices", "serviceLocations",
   "pricingComparison", "faq", "bestRatedCleaners", "leadCapture"]

def pageTypeEnum : List String :=
  ["service", "home", "city", "about", "contact", "blog", "suburb", "cluster", "landing"]

def sectionIntentEnum : List String := ["default", "primary", "secondary", "accent"]
def alignmentEnum : List String := ["left", "center", "right"]
def componentSizeEnum : List String := ["xs", "sm", "md", "lg", "xl", "2xl"]
def containerSizeEnum : List String := ["sm", "md", "lg", "xl", "full"]

def schemaBlockSpecs : List FSpec :=
  [.req "type" pString, .req "data" (pRecord pUnknown)]

def sectionStyleSpecs : List FSpec :=
  [.opt "intent" (pEnum sectionIntentEnum), .opt "align" (pEnum alignmentEnum),
   .opt "padding" (pEnum componentSizeEnum), .opt "container" (pEnum containerSizeEnum)]

def trackingEventSpecs : List FSpec :=
  [.req "name" pString, .opt "data" (pRecord pUnknown)]

def sectionTrackingSpecs : List FSpec :=
  [.opt "id" pString, .opt "events" (pArray (strictObj trackingEventSpecs))]

def sectionSeoSpecs : List FSpec :=
  [.opt "title" pString, .opt "description" pString, .opt "schema" (strictObj schemaBlockSpecs)]

def sectionSpecs : List FSpec :=
  [.req "id" pString, .req "type" (pEnum sectionTypeEnum),
   .req "fields" (pRecord fieldSchema),
   .opt "style" (strictObj sectionStyleSpecs),
   .opt "tracking" (strictObj sectionTrackingSpecs),
   .opt "seo" (strictObj sectionSeoSpecs)]

/-- `sectionSchema` (origincore 336-355). -/
def sectionSchema : Json → Option Json := strictObj sectionSpecs

/- Localization (origincore section 4). -/

def localeSpecs : List FSpec :=
  [.dflt "lang" pString (.str "en"), .opt "region" pString,
   .opt "alternateLinks" (pRecord pString)]

/- Page schema (origincore section 12). -/

def pageStatusEnum : List String := ["draft", "published", "archived"]
def pagePriorityEnum : List String := ["high", "medium", "low"]

def pageMetaRobotsSpecs : List FSpec :=
  [.opt "index" pBool, .opt "follow" pBool, .opt "imageIndex" pBool]

def pageMetaSpecs : List FSpec :=
  [.opt "title" pString, .opt "description" pString, .opt "image" pURL,
   .opt "schema" (strictObj schemaBlockSpecs), .opt "robots" (strictObj pageMetaRobotsSpecs)]

def pageSpecs : List FSpec :=
  [.req "id" pString,
   .req "type" (pEnum pageTypeEnum),
   .req "slug" pString,
   .opt "status" (pEnum pageStatusEnum),
   .opt "priority" (pEnum pagePriorityEnum),
   .opt "meta" (strictObj pageMetaSpecs),
   .req "sections" (pArray sectionSchema),
   .opt "navigation" pUnknown,
   .opt "locale" (strictObj localeSpecs),
   .dflt "clusterRefs" (pArray pString) (.arr []),
   .dflt "sharedSectionRefs" (pArray pString) (.arr []),
   .dflt "version" pIntPositive (.num 1),
   .req "lastModified" pDatetime,
   .req "lastModifiedBy" pString,
   .opt "publishedAt" pDatetime,
   .opt "publishedBy" pString]

/-- `pageSchema` (origincore 376-399). -/
def pageSchema : Json → Option Json := strictObj pageSpecs

/- Route rules, clusters, shared sections (origincore sections 5-6). -/

def routeRuleSpecs : List FSpec :=
  [.req "pattern" pString, .req "type" (pEnum ["static", "dynamic"]),
   .opt "generateFrom" (pEnum ["locations", "services", "clusters", "aiGenerated"]),
   .opt "aiInstructions" pString]

def contentClusterSpecs : List FSpec :=
  [.req "clusterId" pString, .req "label" pString, .opt "description" pString,
   .dflt "sectionRefs" (pArray pString) (.arr [])]

/-- `sharedSectionSchema` after the source's patch at origincore 358, which
replaces the forward-declared `z.any()` for `section` with `sectionSchema`. -/
def sharedSectionSpecs : List FSpec :=
  [.req "id" pString, .req "section" sectionSchema]

/- Advanced SEO / AI configuration (origincore sections 7-10). -/

def vectorSEOSpecs : List FSpec :=
  [.req "enabled" pBool,
   .dflt "embeddingModel" pString (.str "text-embedding-model"),
   .dflt "vectorDB" pString (.str "pinecone"),
   .dflt "clusterStrategy" (pEnum ["semantic", "keyword", "hybrid"]) (.str "semantic")]

def aiCapabilitiesSpecs : List FSpec :=
  [.req "enabled" pBool, .req "provider" (pEnum ["openai", "custom"]),
   .dflt "model" pString (.str "gpt-4"),
   .dflt "fallback" pBool (.bool true),
   .opt "promptTemplates" (pRecord pString),
   .dflt "contentPolicies" (pArray pString) (.arr []),
   .dflt "competitorAwareContent" pBool (.bool false),
   .dflt "localizationSupport" pBool (.bool false)]

def competitorMetricsSpecs : List FSpec :=
  [.dflt "trackSERP" pBool (.bool true),
   .dflt "trackBacklinks" pBool (.bool false),
   .dflt "trackLocalCompetitors" pBool (.bool true)]

def competitorAnalysisSpecs : List FSpec :=
  [.dflt "enabled" pBool (.bool false),
   .dflt "sources" (pArray pString) (.arr []),
   .dflt "frequency" (pEnum ["daily", "weekly", "monthly"]) (.str "weekly"),
   .req "metrics" (strictObj competitorMetricsSpecs)]

def internalLinkingSpecs : List FSpec :=
  [.req "enabled" pBool,
   .req "strategy" (pEnum ["keyword-based", "cluster-based", "ai-suggested"])]

def programmaticSEOSpecs : List FSpec :=
  [.dflt "enabled" pBool (.bool false),
   .dflt "routeRules" (pArray (strictObj routeRuleSpecs)) (.arr []),
   .dflt "localization" pBool (.bool false),
   .dflt "contentClusters" (pArray (strictObj contentClusterSpecs)) (.arr []),
   .dflt "sharedSections" (pArray (strictObj sharedSectionSpecs)) (.arr []),
   .dflt "multilingualSupport" (pArray (strictObj localeSpecs)) (.arr [])]

def seoEnhancementsSpecs : List FSpec :=
  [.req "internalLinking" (strictObj internalLinkingSpecs),
   .opt "schemaEnhancements" (pArray pString),
   .opt "vectorSEO" (strictObj vectorSEOSpecs),
   .req "programmaticSEO" (strictObj programmaticSEOSpecs)]

def advancedConfigSpecs : List FSpec :=
  [.opt "seo" (strictObj seoEnhancementsSpecs),
   .opt "aiContent" (strictObj aiCapabilitiesSpecs),
   .opt "competitorAnalysis" (strictObj competitorAnalysisSpecs)]

/- Feature flags (origincore section 3): 23 boolean flags defaulting to false. -/

def featureFlagsSpecs : List FSpec :=
  [.dflt "enablePersonalization" pBool (.bool false),
   .dflt "enableABTesting" pBool (.bool false),
   .dflt "enableVersioning" pBool (.bool false),
   .dflt "enableDrafts" pBool (.bool false),
   .dflt "enableTemplates" pBool (.bool false),
   .dflt "enableAIContent" pBool (.bool false),
   .dflt "enableMarketIntelligence" pBool (.bool false),
   .dflt "enableAdvancedSEO" pBool (.bool false),
   .dflt "enableCompetitorCrawling" pBool (.bool false),
   .dflt "enableVectorSEO" pBool (.bool false),
   .dflt "enableLeadFunnels" pBool (.bool false),
   .dflt "enableMultiRegionDeploy" pBool (.bool false),
   .dflt "enableMicrofrontends" pBool (.bool false),
   .dflt "enableEmailAutomation" pBool (.bool false),
   .dflt "enableN8nWorkflows" pBool (.bool false),
   .dflt "enableProgrammaticSEO" pBool (.bool false),
   .dflt "enableContentClustering" pBool (.bool false),
   .dflt "enableSharedSections" pBool (.bool false),
   .dflt "enableRoutePersonalization" pBool (.bool false),
   .dflt "enableLocalizationSEO" pBool (.bool false),
   .dflt "enableAdvancedCompetitorAnalysis" pBool (.bool false),
   .dflt "enableRecentlyCleaned" pBool (.bool false),
   .dflt "enableProviderFlow" pBool (.bool false)]

/- Theme schema (origintheme.ts). -/

def colorGroupSpecs : List FSpec :=
  [.dflt "hue" (pNumRange 0 360) (.num 273),
   .dflt "saturation" (pNumRange 0 100) (.num 83),
   .dflt "lightness" (pNumRange 0 100) (.num 60)]

def semanticColorsSpecs : List FSpec :=
  [.req "background" pTuple3Num, .req "foreground" pTuple3Num, .req "accent" pTuple3Num,
   .req "muted" pTuple3Num, .req "destructive" pTuple3Num, .req "border" pTuple3Num,
   .req "input" pTuple3Num, .req "ring" pTuple3Num, .req "card" pTuple3Num,
   .req "popover" pTuple3Num, .req "cardForeground" pTuple3Num,
   .req "popoverForeground" pTuple3Num, .req "primaryForeground" pTuple3Num,
   .req "secondaryForeground" pTuple3Num, .req "mutedForeground" pTuple3Num,
   .req "accentForeground" pTuple3Num, .req "destructiveForeground" pTuple3Num]

def sidebarColorsSpecs : List FSpec :=
  [.req "background" pTuple3Num, .req "foreground" pTuple3Num, .req "primary" pTuple3Num,
   .req "primaryForeground" pTuple3Num, .req "accent" pTuple3Num,
   .req "accentForeground" pTuple3Num, .req "border" pTuple3Num, .req "ring" pTuple3Num]

def chartColorsSpecs : List FSpec :=
  [.req "1" pTuple3Num, .req "2" pTuple3Num, .req "3" pTuple3Num,
   .req "4" pTuple3Num, .req "5" pTuple3Num]

def themeColorsSpecs : List FSpec :=
  [.req "primary" (strictObj colorGroupSpecs),
   .req "secondary" (strictObj colorGroupSpecs),
   .req "neutral" (strictObj colorGroupSpecs),
   .req "semantic" (strictObj semanticColorsSpecs),
   .req "sidebar" (strictObj sidebarColorsSpecs),
   .req "chart" (strictObj chartColorsSpecs)]

def spacingSpecs : List FSpec :=
  [.dflt "base" pNumber (.num 16), .dflt "scale" pNumber (.num 1.5),
   .req "fluid" (strictObj [.dflt "min" pNumber (.num 0.5), .dflt "max" pNumber (.num 1.5)])]

def typographySpecs : List FSpec :=
  [.dflt "baseSize" pNumber (.num 16), .dflt "scaleRatio" pNumber (.num 1.25),
   .req "fluid" (strictObj [.dflt "minVw" pNumber (.num 320), .dflt "maxVw" pNumber (.num 1280)])]

def containersSpecs : List FSpec :=
  [.req "maxWidth" (strictObj
     [.dflt "sm" pNumber (.num 640), .dflt "md" pNumber (.num 768),
      .dflt "lg" pNumber (.num 1024), .dflt "xl" pNumber (.num 1280)]),
   .req "padding" (strictObj
     [.dflt "sm" pNumber (.num 16), .dflt "md" pNumber (.num 24),
      .dflt "lg" pNumber (.num 32)])]

def motionTokensSpecs : List FSpec :=
  [.req "duration" (strictObj
     [.dflt "instant" pNumber (.num 50), .dflt "fast" pNumber (.num 100),
      .dflt "normal" pNumber (.num 200), .dflt "slow" pNumber (.num 300)]),
   .req "easing" (strictObj
     [.dflt "default" pString (.str "cubic-bezier(0.4,0,0.2,1)"),
      .dflt "in" pString (.str "cubic-bezier(0.4,0,1,1)"),
      .dflt "out" pString (.str "cubic-bezier(0,0,0.2,1)")])]

def themeSpecs : List FSpec :=
  [.req "colors" (strictObj themeColorsSpecs),
   .req "spacing" (strictObj spacingSpecs),
   .req "typography" (strictObj typographySpecs),
   .req "containers" (strictObj containersSpecs),
   .req "motion" (strictObj motionTokensSpecs),
   .dflt "darkMode" pBool (.bool false),
   .dflt "prefersReducedMotion" pBool (.bool false)]

/-- `themeSchema` (origintheme 79-127). -/
def themeSchema : Json → Option Json := strictObj themeSpecs

/- App config schema (origincore section 19).  Note: the base object is NOT
`.strict()` in the source, so unknown keys are stripped, and the refinement
runs on the parsed output. -/

def appConfigSpecs : List FSpec :=
  [.req "featureFlags" (strictObj featureFlagsSpecs),
   .opt "theme" themeSchema,
   .opt "advancedConfig" (strictObj advancedConfigSpecs)]

def objBindings : Json → List (String × Json)
  | .obj kvs => kvs
  | _ => []

/-- JS property read on a parsed value (`undefined` modelled as `none`). -/
def readProp (j : Json) (k : String) : Option Json := lookupKey (objBindings j) k

def propTruthy (j : Json) (k : String) : Bool :=
  match readProp j k with
  | some v => jsTruthy v
  | none => false

/-- The truthiness of `data.featureFlags.<flag>` on a parsed config. -/
def getFFlag (data : Json) (flag : String) : Bool :=
  match readProp data "featureFlags" with
  | some ff => propTruthy ff flag
  | none => false

/-- The refinement body at origincore 719-724:
`data.advancedConfig && !data.featureFlags.enableAdvancedSEO &&
!data.featureFlags.enableAIContent` fails validation. -/
def appConfigRefineOK (data : Json) : Bool :=
  !(propTruthy data "advancedConfig"
    && !(getFFlag data "enableAdvancedSEO")
    && !(getFFlag data "enableAIContent"))

/-- `appConfigSchema` (origincore 715-726): non-strict object plus refinement. -/
def appConfigSchema (j : Json) : Option Json :=
  match stripObj appConfigSpecs j with
  | none => none
  | some out => if appConfigRefineOK out then some out else none

/- ========================================================================
   Validation & errors (origincore sections 14-15).

   `ValidationError(message, code, details)` and plain `Error(message)` are
   modelled as the two constructors of `CoreErr`; the structured `details`
   payload is not tracked (no claim refers to it).  Note that
   `resolveSharedSections` passes its arguments in (code, message) order to
   the `ValidationError` constructor, so there the `message` field holds the
   short code-like string.
   ======================================================================== -/

inductive CoreErr where
  | validationError (message : String) (code : String) : CoreErr
  | error (msg : String) : CoreErr
deriving DecidableEq

/-- `validationUtils.validateSafely` (origincore 475-485). -/
def validateSafely (schema : Json → Option Json) (data : Json) (errorCode : String) :
    Except CoreErr Json :=
  match schema data with
  | none => .error (.validationError "Validation failed" errorCode)
  | some v => .ok v

/-- Step 2 of `validatePage`: the `forEach` over sections, re-validating each
one against `sectionSchema` with error code `INVALID_SECTION_{index}`
(origincore 544-550).  A thrown error aborts the iteration. -/
def validateSections (i : Nat) : List Json → Except CoreErr Unit
  | [] => .ok ()
  | s :: rest =>
    match validateSafely sectionSchema s ("INVALID_SECTION_" ++ toString i) with
    | .error e => .error e
    | .ok _ => validateSections (i + 1) rest

def sectionsOf (p : Json) : List Json :=
  match readProp p "sections" with
  | some (.arr ss) => ss
  | _ => []

/-- Crude rendering of a JSON value, used only inside error message strings
(the source interpolates the offending value into the message). -/
def jsonDisplay : Json → String
  | .null => "null"
  | .bool b => toString b
  | .num n => toString n
  | .str s => s
  | .arr _ => "[array]"
  | .obj _ => "[object]"

/-- The resolution loop of `resolveSharedSections` (origincore 1062-1085):
`acc` is `updatedSections`, `seen` is `resolvedRefs`.  A non-string ref
throws; a dangling ref, an invalid payload, and an already-resolved ref are
each skipped with a log. -/
def resolveLoop (shared : List (String × Json)) :
    List Json → List Json → List String → Except CoreErr (List Json)
  | [], acc, _ => .ok acc
  | r :: rest, acc, seen =>
    match r with
    | .str refId =>
      match shared.find? (fun sh => sh.1 == refId) with
      | none => resolveLoop shared rest acc seen
      | some sh =>
        if (sectionSchema sh.2).isSome then
          if seen.contains refId then resolveLoop shared rest acc seen
          else resolveLoop shared rest (acc ++ [sh.2]) (refId :: seen)
        else resolveLoop shared rest acc seen
    | other =>
      .error (.validationError "INVALID_REF_ID"
        ("Invalid shared section reference: " ++ jsonDisplay other))

def jsonSetProp (j : Json) (k : String) (v : Json) : Json :=
  match j with
  | .obj kvs => .obj (setKey kvs k v)
  | other => other

/-- `resolveSharedSections` (origincore 1046-1091), JSON-value model.  The
shared pool (`globalAppConfig.advancedConfig?.seo?.programmaticSEO?.sharedSections`)
and the `enableSharedSections` flag are passed explicitly.  The result is a
new page value `{...page, sections: updatedSections}`. -/
def resolveSharedSections (enableSharedSections : Bool)
    (shared : List (String × Json)) (page : Json) : Except CoreErr Json :=
  if !(jsTruthy page) then
    .error (.validationError "PAGE_REQUIRED" "Page is required for resolving shared sections")
  else if !enableSharedSections || shared.length == 0 then
    .ok page
  else
    match readProp page "sharedSectionRefs" with
    | some (.arr refs) =>
      let original : List Json :=
        match readProp page "sections" with
        | some (.arr ss) => ss
        | _ => []
      match resolveLoop shared refs original [] with
      | .error e => .error e
      | .ok newSections => .ok (jsonSetProp page "sections" (.arr newSections))
    | _ => .error (.validationError "INVALID_SHARED_REFS" "sharedSectionRefs must be an array")

/-- `pageValidationMiddleware.validatePage` (origincore 535-559): the
three-step validation pipeline. -/
def validatePage (enableSharedSections : Bool) (shared : List (String × Json))
    (page : Json) (resolveShared : Bool) : Except CoreErr Json :=
  match validateSafely pageSchema page "INVALID_PAGE_STRUCTURE" with
  | .error e => .error e
  | .ok validatedPage =>
    match validateSections 0 (sectionsOf validatedPage) with
    | .error e => .error e
    | .ok _ =>
      if resolveShared then resolveSharedSections enableSharedSections shared validatedPage
      else .ok validatedPage

/- ========================================================================
   Specification-side helpers for shared-section resolution: first-occurrence
   deduplication composed with per-id resolution.  These are the reference
   functions the resolution loop is proved equal to (claims C5, C6).
   ======================================================================== -/

/-- Keep the first occurrence of every element, in order. -/
def dedupFirst : List String → List String
  | [] => []
  | x :: xs => x :: dedupFirst (xs.filter (fun y => y != x))
termination_by l => l.length
decreasing_by
  simp only [List.length_cons]
  exact Nat.lt_succ_of_le (List.length_filter_le _ _)

/-- Resolution of a single ref id against the shared pool: the first pool
entry with that id, provided its payload passes `sectionSchema`. -/
def resolveOneShared (shared : List (String × Json)) (refId : String) : Option Json :=
  match shared.find? (fun sh => sh.1 == refId) with
  | some sh => if (sectionSchema sh.2).isSome then some sh.2 else none
  | none => none

def resolvedAppend (shared : List (String × Json)) (refs : List String) : List Json :=
  (dedupFirst refs).filterMap (resolveOneShared shared)

/- ========================================================================
   Registries (origincore sections 16, 21, 23) and the programmatic-SEO
   generator (origincore 1002-1044), as explicit state passing.  The three
   registries are keyed association lists in insertion order; `randomUUID`
   and `new Date().toISOString()` are modelled by a counter in the state and
   a clock string in the environment (their values never matter to the
   claims, only their threading).
   ======================================================================== -/

def lookupReg {α : Type} (reg : List (String × α)) (k : String) : Option α :=
  match reg.find? (fun p => p.1 == k) with
  | some p => some p.2
  | none => none

/-- `SectionRegistryItem` (origincore 599-605).  The `component` (a React
component) and the optional `generateContent` callback are not representable
values and are not consulted by any code under scrutiny, so they are
omitted. -/
structure SectionRegistryItem where
  label : String
  icon : String
  description : String
deriving DecidableEq

/-- `sectionRegistryUtils.register` (origincore 610-613). -/
def sectionRegistryUtils.register (reg : List (String × SectionRegistryItem))
    (type : String) (item : SectionRegistryItem) :
    Except CoreErr (List (String × SectionRegistryItem)) :=
  if (lookupReg reg type).isSome then
    .error (.error ("Section type " ++ type ++ " already registered"))
  else .ok (reg ++ [(type, item)])

/-- `sectionRegistryUtils.has` (origincore 620). -/
def sectionRegistryUtils.has (reg : List (String × SectionRegistryItem))
    (type : String) : Bool :=
  (lookupReg reg type).isSome

/-- JS truthiness of a `string | undefined` value (empty string is falsy). -/
def truthyStr : Option String → Bool
  | some s => s != ""
  | none => false

structure RouteRuleT where
  pattern : String
  rtype : String
  generateFrom : Option String
  aiInstructions : Option String
deriving DecidableEq

structure ProgSEOCfg where
  enabled : Bool
  routeRules : List RouteRuleT
  localization : Bool
deriving DecidableEq

structure AIContentCfg where
  enabled : Bool
deriving DecidableEq

/-- The slice of the frozen `globalAppConfig` read by the generator, plus the
section-type registry (read by `createSection`) and the clock.  `none` for
`progSEO` / `aiContent` models a missing link of the optional-chaining
path `advancedConfig?.seo?.programmaticSEO` / `advancedConfig?.aiContent`. -/
structure GenEnv where
  enableProgrammaticSEO : Bool
  enableAIContent : Bool
  progSEO : Option ProgSEOCfg
  aiContent : Option AIContentCfg
  sectionTypes : List String
  now : String
deriving DecidableEq

structure FieldT where
  fid : String
  ftype : String
  value : String
deriving DecidableEq

/-- Generated sections carry only text fields; `style`, `tracking` and `seo`
are created empty by `createSection` and never read. -/
structure SectionT where
  sid : String
  stype : String
  fields : List (String × FieldT)
deriving DecidableEq

structure PageT where
  pid : String
  ptype : String
  slug : String
  sections : List SectionT
  clusterRefs : List String
  sharedSectionRefs : List String
  version : Nat
  lastModified : String
  lastModifiedBy : String
deriving DecidableEq

structure SEOState where
  pages : List (String × PageT)
  uuidCount : Nat
deriving DecidableEq

def uuidString (n : Nat) : String := "uuid-" ++ toString n

def getPageBySlugIn (pages : List (String × PageT)) (slug : String) : Option PageT :=
  lookupReg pages slug

/-- `registerPage` (origincore 989-992): hard error on a duplicate slug. -/
def registerPage (pages : List (String × PageT)) (page : PageT) :
    Except CoreErr (List (String × PageT)) :=
  if (lookupReg pages page.slug).isSome then
    .error (.error ("Page slug " ++ page.slug ++ " already registered"))
  else .ok (pages ++ [(page.slug, page)])

/-- `pageBuilderUtils.createSection` (origincore 624-636). -/
def pageBuilderUtils.createSection (env : GenEnv) (st : SEOState)
    (type : String) (fields : List (String × FieldT)) :
    Except CoreErr (SectionT × SEOState) :=
  if !(env.sectionTypes.contains type) then
    .error (.error ("Cannot create section: type " ++ type ++ " not found in registry"))
  else
    .ok (⟨uuidString st.uuidCount, type, fields⟩, { st with uuidCount := st.uuidCount + 1 })

def isWSChar (c : Char) : Bool := c = ' ' || c = '\t' || c = '\n' || c = '\r'

/-- `String.prototype.trim`, structurally recursive. -/
def trimChars (cs : List Char) : List Char :=
  ((cs.dropWhile isWSChar).reverse.dropWhile isWSChar).reverse

/-- `pageBuilderUtils.createPage` (origincore 637-664). -/
def pageBuilderUtils.createPage (env : GenEnv) (st : SEOState)
    (ptype slug : String) : Except CoreErr (PageT × SEOState) :=
  if !(pageTypeEnum.contains ptype) then
    .error (.validationError ("Invalid page type: " ++ ptype) "INVALID_PAGE_TYPE")
  else if slug == "" || trimChars slug.data == [] then
    .error (.validationError "Invalid slug: must be non-empty string" "INVALID_PAGE_SLUG")
  else
    .ok (⟨uuidString st.uuidCount, ptype, slug, [], [], [], 1, env.now, "system"⟩,
         { st with uuidCount := st.uuidCount + 1 })

/-- `generateAIContentSections` (origincore 1038-1044).  The stub generates
one text section; note that the `instructions` argument is only consulted for
truthiness, never used in the generated content. -/
def generateAIContentSections (env : GenEnv) (st : SEOState)
    (instructions : Option String) (vars : List (String × String)) :
    Except CoreErr (List SectionT × SEOState) :=
  if !truthyStr instructions || !((env.aiContent.map (fun c => c.enabled)).getD false) then
    .ok ([], st)
  else
    let city := (lookupReg vars "city").getD "undefined"
    let service := (lookupReg vars "service").getD "undefined"
    let generatedText := "AI generated content for " ++ city ++ " " ++ service
    let textField : FieldT := ⟨"intro", "text", generatedText⟩
    match pageBuilderUtils.createSection env st "text" [("intro", textField)] with
    | .error e => .error e
    | .ok (sec, st') => .ok ([sec], st')

structure ProgSEODetails where
  routeRules : List RouteRuleT
  localization : Bool
  aiInstructions : Option String
deriving DecidableEq

/-- `extractProgrammaticSEODetails` (origincore 1028-1036):
`aiInstructions` is `routeRules.find(r => r.aiInstructions)?.aiInstructions`,
the instructions of the first rule with a truthy `aiInstructions`. -/
def extractProgrammaticSEODetails (env : GenEnv) : ProgSEODetails :=
  let routeRules := (env.progSEO.map (fun c => c.routeRules)).getD []
  { routeRules := routeRules
    localization := (env.progSEO.map (fun c => c.localization)).getD false
    aiInstructions :=
      (routeRules.find? (fun r => truthyStr r.aiInstructions)).bind (fun r => r.aiInstructions) }

def cities : List String := ["sydney", "melbourne", "brisbane"]
def services : List String := ["house-cleaning", "end-of-lease"]

def slugFor (city service : String) : String := "/" ++ city ++ "/" ++ service

/-- The body of the generation loop for one `(city, service)` pair
(origincore 1012-1021).  Note the guard `rule.aiInstructions`: AI content is
generated from the current rule's own instructions. -/
def processPair (env : GenEnv) (rule : RouteRuleT) (city service : String)
    (st : SEOState) : Except CoreErr SEOState :=
  let slug := slugFor city service
  match getPageBySlugIn st.pages slug with
  | some _ => .ok st
  | none =>
    match (if env.enableAIContent
              && ((env.aiContent.map (fun c => c.enabled)).getD false)
              && truthyStr rule.aiInstructions
           then generateAIContentSections env st rule.aiInstructions
                  [("city", city), ("service", service)]
           else .ok ([], st)) with
    | .error e => .error e
    | .ok (generatedSections, st1) =>
      match pageBuilderUtils.createPage env st1 "city" slug with
      | .error e => .error e
      | .ok (newPage, st2) =>
        match registerPage st2.pages
                { newPage with sections := newPage.sections ++ generatedSections } with
        | .error e => .error e
        | .ok pages' => .ok { st2 with pages := pages' }

def foldExcept {α σ : Type} (f : α → σ → Except CoreErr σ) : List α → σ → Except CoreErr σ
  | [], st => .ok st
  | x :: xs, st =>
    match f x st with
    | .error e => .error e
    | .ok st' => foldExcept f xs st'

/-- One route rule of `applyProgrammaticSEO`'s outer loop (origincore
1006-1024): only `dynamic` rules generating from `locations` produce pages,
via the cross product of the fixed city and service lists. -/
def processRule (env : GenEnv) (rule : RouteRuleT) (st : SEOState) :
    Except CoreErr SEOState :=
  if rule.rtype == "dynamic" && rule.generateFrom == some "locations" then
    foldExcept
      (fun city st =>
        foldExcept (fun service st => processPair env rule city service st) services st)
      cities st
  else .ok st

/-- `applyProgrammaticSEO` (origincore 1002-1026). -/
def applyProgrammaticSEO (env : GenEnv) (st : SEOState) : Except CoreErr SEOState :=
  if !env.enableProgrammaticSEO || !((env.progSEO.map (fun c => c.enabled)).getD false) then
    .ok st
  else
    foldExcept (processRule env) (extractProgrammaticSEODetails env).routeRules st

def countSlug (pages : List (String × PageT)) (slug : String) : Nat :=
  (pages.filter (fun p => p.1 == slug)).length

/-- The variant of `applyProgrammaticSEO` the specification describes
(modelled from the spec for the refinement comparison of claim C1): the
shared `aiInstructions` extracted from the first instruction-carrying rule is
the one passed to AI generation for every page, regardless of the rule
currently generating. -/
def applyProgrammaticSEOSpecShared (env : GenEnv) (st : SEOState) :
    Except CoreErr SEOState :=
  if !env.enableProgrammaticSEO || !((env.progSEO.map (fun c => c.enabled)).getD false) then
    .ok st
  else
    let details := extractProgrammaticSEODetails env
    foldExcept
      (fun rule st =>
        processRule env { rule with aiInstructions := details.aiInstructions } st)
      details.routeRules st

/- ========================================================================
   Heap / address models for JavaScript object identity.

   A `THeap` assigns JSON contents to addresses; two structures share
   mutable substructure exactly when they hold the same address.  Used for
   template instantiation (claim C2: `{ ...template.section }` is a shallow
   copy) and shared-section resolution (claim C6: the pool's section object
   is pushed by reference).
   ======================================================================== -/

structure THeap where
  next : Nat
  mem : List (Nat × Json)

def heapLookup (h : THeap) (a : Nat) : Option Json :=
  (h.mem.find? (fun p => p.1 == a)).map (fun p => p.2)

def heapAlloc (h : THeap) (v : Json) : Nat × THeap :=
  (h.next, { next := h.next + 1, mem := h.mem ++ [(h.next, v)] })

/- Template variable substitution: `JSON.stringify(section).replace(
/\$\x7b(\w+)\x7d/g, (_, key) => String(variables[key] ?? ''))` followed by
`JSON.parse`.  The regex touches every string of the serialized form (keys
included); JSON structural characters can never be part of a match because
`$` only occurs inside string literals of the serialized text. -/

def isWordChar (c : Char) : Bool := c.isAlphanum || c == '_'

def lbraceChar : Char := Char.ofNat 123
def rbraceChar : Char := Char.ofNat 125

def lookupVarStr (vars : List (String × String)) (key : String) : String :=
  match vars.find? (fun p => p.1 == key) with
  | some p => p.2
  | none => ""

/-- One scanning pass of the global regex replace.  The fuel argument (always
instantiated with the list length, which bounds the number of scanning
steps since every step consumes at least one character) keeps the recursion
structural so concrete substitutions reduce definitionally. -/
def substCharsFuel (vars : List (String × String)) : Nat → List Char → List Char
  | 0, cs => cs
  | _ + 1, [] => []
  | fuel + 1, c :: rest =>
    if c == '$' && rest.head? == some lbraceChar then
      if (rest.tail.dropWhile isWordChar).head? = some rbraceChar
          ∧ rest.tail.takeWhile isWordChar ≠ [] then
        (lookupVarStr vars (String.mk (rest.tail.takeWhile isWordChar))).data
          ++ substCharsFuel vars fuel (rest.tail.dropWhile isWordChar).tail
      else c :: substCharsFuel vars fuel rest
    else c :: substCharsFuel vars fuel rest

def substChars (vars : List (String × String)) (cs : List Char) : List Char :=
  substCharsFuel vars cs.length cs

def substStr (vars : List (String × String)) (s : String) : String :=
  String.mk (substChars vars s.data)

mutual
def substJson (vars : List (String × String)) : Json → Json
  | .null => .null
  | .bool b => .bool b
  | .num n => .num n
  | .str s => .str (substStr vars s)
  | .arr xs => .arr (substJsonList vars xs)
  | .obj kvs => .obj (substJsonPairs vars kvs)

def substJsonList (vars : List (String × String)) : List Json → List Json
  | [] => []
  | x :: xs => substJson vars x :: substJsonList vars xs

def substJsonPairs (vars : List (String × String)) :
    List (String × Json) → List (String × Json)
  | [] => []
  | (k, v) :: rest => (substStr vars k, substJson vars v) :: substJsonPairs vars rest
end

/- Template system (origincore section 23). -/

/-- One entry of a template's `variables` array (named `varsDecl` below,
since `variables` is reserved).  Only `key` is consulted by substitution and
only the array's length by `instantiate`; the remaining declared attributes
(`description?`, `options?`, `defaultValue?`) are omitted. -/
structure TVar where
  key : String
  label : String
  vtype : String
deriving DecidableEq

/-- The skeleton `section` of a template, with its mutable `fields` record
held behind a heap address. -/
structure TSectionRef where
  sid : String
  stype : String
  fieldsAddr : Nat
deriving DecidableEq

structure TemplateH where
  tid : String
  tname : String
  description : Option String
  tsection : TSectionRef
  varsDecl : List TVar
  aiPrompt : Option String
  category : Option String
  tags : List String
deriving DecidableEq

/-- `templateUtils.register` (origincore 1135-1140). -/
def templateUtils.register (reg : List (String × TemplateH)) (template : TemplateH) :
    Except CoreErr (List (String × TemplateH)) :=
  if (lookupReg reg template.tid).isSome then
    .error (.validationError "Template already exists" "TEMPLATE_EXISTS")
  else .ok (reg ++ [(template.tid, template)])

/-- `templateUtils.get` (origincore 1142-1148). -/
def templateUtils.get (reg : List (String × TemplateH)) (id : String) :
    Except CoreErr TemplateH :=
  match lookupReg reg id with
  | none => .error (.validationError "Template not found" "TEMPLATE_NOT_FOUND")
  | some t => .ok t

/-- The environment consulted by `instantiate`'s AI branch. -/
structure InstEnv where
  aiContentEnabled : Bool
  sectionTypes : List String
deriving DecidableEq

/-- `generateAIContentSections` as called from `instantiate`, in the heap
model: a generated section allocates a fresh fields record.  `randomUUID` is
derived from the allocation counter. -/
def generateAIContentSectionsRef (env : InstEnv) (h : THeap)
    (instructions : Option String) (vars : List (String × String)) :
    Except CoreErr (List TSectionRef × THeap) :=
  if !truthyStr instructions || !env.aiContentEnabled then .ok ([], h)
  else
    let city := match vars.find? (fun p => p.1 == "city") with
      | some p => p.2
      | none => "undefined"
    let service := match vars.find? (fun p => p.1 == "service") with
      | some p => p.2
      | none => "undefined"
    let generatedText := "AI generated content for " ++ city ++ " " ++ service
    if !(env.sectionTypes.contains "text") then
      .error (.error "Cannot create section: type text not found in registry")
    else
      let fieldsJson : Json :=
        .obj [("intro", .obj [("id", .str "intro"), ("type", .str "text"),
                              ("value", .str generatedText)])]
      let (a, h') := heapAlloc h fieldsJson
      .ok ([⟨uuidString h.next, "text", a⟩], h')

/-- `templateUtils.instantiate` (origincore 1154-1180), heap model.
`let section = { ...template.section }` copies the top-level record but not
the nested `fields` object, so the address is retained; the
`JSON.parse(JSON.stringify(...).replace(...))` branch (only taken when the
template declares at least one variable) rebuilds the section from its
serialized form, allocating a fresh fields record.  When AI content is
generated, `{ ...section, ...aiContent[0] }` overrides every component of
the section with the freshly generated one. -/
def templateUtils.instantiate (env : InstEnv) (reg : List (String × TemplateH))
    (h : THeap) (templateId : String) (vars : List (String × String)) :
    Except CoreErr (TSectionRef × THeap) :=
  match templateUtils.get reg templateId with
  | .error e => .error e
  | .ok template =>
    let section0 := template.tsection
    let step1 : TSectionRef × THeap :=
      if template.varsDecl.length > 0 then
        let fjson := (heapLookup h section0.fieldsAddr).getD .null
        let fjson' := substJson vars fjson
        let (a, h') := heapAlloc h fjson'
        (⟨substStr vars section0.sid, substStr vars section0.stype, a⟩, h')
      else (section0, h)
    let section1 := step1.1
    let h1 := step1.2
    if truthyStr template.aiPrompt then
      match generateAIContentSectionsRef env h1 template.aiPrompt vars with
      | .error e => .error e
      | .ok ([], h2) => .ok (section1, h2)
      | .ok (aiSec :: _, h2) => .ok (aiSec, h2)
    else .ok (section1, h1)

/- Shared-section resolution in the heap model (claim C6): the pool entries
hold their section payloads behind addresses, and the resolution loop pushes
`sharedSec.section` — the address itself, not a copy. -/

structure ASharedSection where
  id : String
  sectionAddr : Nat
deriving DecidableEq

/-- The parts of a page consulted and rebuilt by `resolveSharedSections`;
all other page properties are carried unchanged by the final spread. -/
structure APage where
  slug : String
  sections : List Nat
  sharedSectionRefs : List String
deriving DecidableEq

def isSectionAt (heap : THeap) (a : Nat) : Bool :=
  match heapLookup heap a with
  | some sj => (sectionSchema sj).isSome
  | none => false

def resolveLoopRef (pool : List ASharedSection) (heap : THeap) :
    List String → List Nat → List String → List Nat
  | [], acc, _ => acc
  | refId :: rest, acc, seen =>
    match pool.find? (fun sh => sh.id == refId) with
    | none => resolveLoopRef pool heap rest acc seen
    | some sh =>
      if isSectionAt heap sh.sectionAddr then
        if seen.contains refId then resolveLoopRef pool heap rest acc seen
        else resolveLoopRef pool heap rest (acc ++ [sh.sectionAddr]) (refId :: seen)
      else resolveLoopRef pool heap rest acc seen

/-- `resolveSharedSections` in the heap model.  The typed `Page` input makes
the `!page` and `Array.isArray` guards unfailing, so they are elided; the
function reads the heap but neither writes nor extends it, and returns a new
page value. -/
def resolveSharedSectionsRef (enableSharedSections : Bool)
    (pool : List ASharedSection) (heap : THeap) (page : APage) : APage :=
  if !enableSharedSections || pool.length == 0 then page
  else
    { page with
      sections := resolveLoopRef pool heap page.sharedSectionRefs page.sections [] }

def resolveOneSharedRef (pool : List ASharedSection) (heap : THeap)
    (refId : String) : Option Nat :=
  match pool.find? (fun sh => sh.id == refId) with
  | some sh => if isSectionAt heap sh.sectionAddr then some sh.sectionAddr else none
  | none => none

def resolvedAppendRef (pool : List ASharedSection) (heap : THeap)
    (refs : List String) : List Nat :=
  (dedupFirst refs).filterMap (resolveOneSharedRef pool heap)

/- ========================================================================
   Concrete example values used by witnesses.
   ======================================================================== -/

/-- A valid (already normalized) section JSON value. -/
def sectionJsonEx : Json :=
  .obj [("id", .str "s1"), ("type", .str "hero"),
        ("fields", .obj [("t1", .obj [("id", .str "t1"), ("type", .str "text"),
                                      ("value", .str "Welcome")])])]

/-- A valid page JSON value (one section, minimal metadata). -/
def pageJsonEx : Json :=
  .obj [("id", .str "p1"), ("type", .str "home"), ("slug", .str "/"),
        ("sections", .arr [sectionJsonEx]),
        ("lastModified", .str "2024-12-17T00:00:00Z"),
        ("lastModifiedBy", .str "system")]

/-- The normalized output of `pageSchema` on `pageJsonEx`. -/
def pageNormEx : Json := (pageSchema pageJsonEx).getD .null

/- Concrete instances for the heap-model claims. -/

def poolC6 : List ASharedSection := [⟨"promo", 0⟩]
def heapC6 : THeap := ⟨1, [(0, sectionJsonEx)]⟩
def pageC6 : APage := ⟨"/p", [], ["promo"]⟩

def envC2 : InstEnv := ⟨true, ["text"]⟩
def tmplC2 : TemplateH := ⟨"t1", "T", none, ⟨"s1", "hero", 0⟩, [], none, none, []⟩
def regC2 : List (String × TemplateH) := [("t1", tmplC2)]
def heapC2 : THeap := ⟨1, [(0, Json.obj [])]⟩
def tmplC2v : TemplateH :=
  ⟨"t2", "T2", none, ⟨"s2", "text", 0⟩, [⟨"city", "City", "text"⟩], none, none, []⟩
def regC2v : List (String × TemplateH) := [("t2", tmplC2v)]

/-- The fields record allocated by `generateAIContentSectionsRef` (the
`fields` object of the stub-generated text section), as a function of the
variable mapping. -/
def aiFieldsJson (vars : List (String × String)) : Json :=
  .obj [("intro", .obj [("id", .str "intro"), ("type", .str "text"),
        ("value", .str ("AI generated content for "
          ++ (match vars.find? (fun p => p.1 == "city") with
              | some p => p.2
              | none => "undefined")
          ++ " "
          ++ (match vars.find? (fun p => p.1 == "service") with
              | some p => p.2
              | none => "undefined")))])]

/-- A registered template with no variables but a truthy `aiPrompt` (for the
AI-augmentation arm of the amended C2). -/
def tmplC2p : TemplateH :=
  ⟨"t3", "T3", none, ⟨"s3", "hero", 0⟩, [], some "Write intro", none, []⟩

def regC2p : List (String × TemplateH) := [("t3", tmplC2p)]

/- Concrete app-config instances for claim C8. -/

def cfgJsonC8 : Json :=
  .obj [("featureFlags", .obj [("enableAdvancedSEO", .bool true)]),
        ("advancedConfig", .obj [])]

def cfgOutC8 : Json := (stripObj appConfigSpecs cfgJsonC8).getD .null

/- Concrete environments and states for the generator claims (C1, C3). -/

def st0Gen : SEOState := ⟨[], 0⟩

def ruleC3 : RouteRuleT :=
  ⟨"/:city/:service", "dynamic", some "locations", some "Generate city-service pages using AI"⟩

def cfgC3 : ProgSEOCfg := ⟨true, [ruleC3], true⟩

/-- Generator environment mirroring the shipped `globalAppConfig`, with AI
content generation disabled so no section-type registration is needed. -/
def envC3 : GenEnv := ⟨true, false, some cfgC3, some ⟨true⟩, [], "2024-12-17T00:00:00.000Z"⟩

def st1C3 : SEOState :=
  match applyProgrammaticSEO envC3 st0Gen with
  | .ok s => s
  | .error _ => st0Gen

def ruleC1a : RouteRuleT := ⟨"/services/:service", "dynamic", some "services", some "A"⟩
def ruleC1b : RouteRuleT := ⟨"/:city/:service", "dynamic", some "locations", none⟩
def cfgC1 : ProgSEOCfg := ⟨true, [ruleC1a, ruleC1b], false⟩

/-- Two dynamic rules: the first (non-generating) carries instructions "A",
the second (the locations rule that generates every page) carries none.  All
AI-content switches are on and the `text` section type is registered. -/
def envC1 : GenEnv := ⟨true, true, some cfgC1, some ⟨true⟩, ["text"], "2024-12-17T00:00:00.000Z"⟩

def defaultPageT : PageT := ⟨"", "", "", [], [], [], 0, "", ""⟩

def st1C1 : SEOState :=
  match applyProgrammaticSEO envC1 st0Gen with
  | .ok s => s
  | .error _ => st0Gen

def pgC1 : PageT := (lookupReg st1C1.pages "/sydney/house-cleaning").getD defaultPageT

def st1C1s : SEOState :=
  match applyProgrammaticSEOSpecShared envC1 st0Gen with
  | .ok s => s
  | .error _ => st0Gen

def pgC1s : PageT := (lookupReg st1C1s.pages "/sydney/house-cleaning").getD defaultPageT

/-- Rule used by the C1 amended witness: a locations rule carrying its own
instructions. -/
def ruleW1 : RouteRuleT := ⟨"/:city/:service", "dynamic", some "locations", some "B"⟩

/- ========================================================================
   Generic idempotence machinery: a successful Zod parse yields a value
   that re-parses to itself.  This underpins the unreachability of the
   per-section validation failures (claim C9).
   ======================================================================== -/

/-- A parser is idempotent when each of its outputs re-parses to itself. -/
def PIdem (p : Json → Option Json) : Prop :=
  ∀ j o, p j = some o → p o = some o

/-- The obligation attached to one field specification: its parser is
idempotent, and a default value re-parses to itself. -/
def SpecOK : FSpec → Prop
  | .req _ p => PIdem p
  | .opt _ p => PIdem p
  | .dflt _ p d => PIdem p ∧ p d = some d

theorem lookupKey_eq_none_of_not_mem {kvs : List (String × Json)} {k : String}
    (h : k ∉ kvs.map Prod.fst) : lookupKey kvs k = none := by
  induction kvs with
  | nil => rfl
  | cons kv rest ih =>
    simp only [List.map_cons, List.mem_cons] at h
    push_neg at h
    simp only [lookupKey]
    rw [if_neg (Ne.symm h.1)]
    exact ih h.2

/-- Inversion for a required field at the head of the specification list. -/
theorem runSpecs_req_inv {kvs : List (String × Json)} {k : String}
    {p : Json → Option Json} {rest : List FSpec} {out : List (String × Json)}
    (h : runSpecs kvs (.req k p :: rest) = some out) :
    ∃ v v' tl, lookupKey kvs k = some v ∧ p v = some v' ∧
      runSpecs kvs rest = some tl ∧ out = (k, v') :: tl := by
  cases hl : lookupKey kvs k with
  | none => simp [runSpecs, hl] at h
  | some v =>
    cases hp : p v with
    | none => simp [runSpecs, hl, hp] at h
    | some v' =>
      cases hr : runSpecs kvs rest with
      | none => simp [runSpecs, hl, hp, hr] at h
      | some tl =>
        simp only [runSpecs, hl, hp, hr, Option.map_some', Option.some.injEq] at h
        exact ⟨v, v', tl, rfl, hp, rfl, h.symm⟩

/-- Inversion for an optional field at the head of the specification list. -/
theorem runSpecs_opt_inv {kvs : List (String × Json)} {k : String}
    {p : Json → Option Json} {rest : List FSpec} {out : List (String × Json)}
    (h : runSpecs kvs (.opt k p :: rest) = some out) :
    (lookupKey kvs k = none ∧ runSpecs kvs rest = some out) ∨
    (∃ v v' tl, lookupKey kvs k = some v ∧ p v = some v' ∧
      runSpecs kvs rest = some tl ∧ out = (k, v') :: tl) := by
  cases hl : lookupKey kvs k with
  | none =>
    left
    simp only [runSpecs, hl] at h
    exact ⟨rfl, h⟩
  | some v =>
    right
    cases hp : p v with
    | none => simp [runSpecs, hl, hp] at h
    | some v' =>
      cases hr : runSpecs kvs rest with
      | none => simp [runSpecs, hl, hp, hr] at h
      | some tl =>
        simp only [runSpecs, hl, hp, hr, Option.map_some', Option.some.injEq] at h
        exact ⟨v, v', tl, rfl, hp, rfl, h.symm⟩

/-- Inversion for a defaulted field at the head of the specification list. -/
theorem runSpecs_dflt_inv {kvs : List (String × Json)} {k : String}
    {p : Json → Option Json} {d : Json} {rest : List FSpec} {out : List (String × Json)}
    (h : runSpecs kvs (.dflt k p d :: rest) = some out) :
    (∃ tl, lookupKey kvs k = none ∧ runSpecs kvs rest = some tl ∧ out = (k, d) :: tl) ∨
    (∃ v v' tl, lookupKey kvs k = some v ∧ p v = some v' ∧
      runSpecs kvs rest = some tl ∧ out = (k, v') :: tl) := by
  cases hl : lookupKey kvs k with
  | none =>
    left
    cases hr : runSpecs kvs rest with
    | none => simp [runSpecs, hl, hr] at h
    | some tl =>
      simp only [runSpecs, hl, hr, Option.map_some', Option.some.injEq] at h
      exact ⟨tl, rfl, rfl, h.symm⟩
  | some v =>
    right
    cases hp : p v with
    | none => simp [runSpecs, hl, hp] at h
    | some v' =>
      cases hr : runSpecs kvs rest with
      | none => simp [runSpecs, hl, hp, hr] at h
      | some tl =>
        simp only [runSpecs, hl, hp, hr, Option.map_some', Option.some.injEq] at h
        exact ⟨v, v', tl, rfl, hp, rfl, h.symm⟩

theorem runSpecs_keys_sub {kvs : List (String × Json)} {specs : List FSpec}
    {out : List (String × Json)} (h : runSpecs kvs specs = some out) :
    ∀ kv ∈ out, kv.1 ∈ specs.map FSpec.key := by
  induction specs generalizing out with
  | nil =>
    simp only [runSpecs, Option.some.injEq] at h
    subst h; simp
  | cons s rest ih =>
    intro kv hkv
    cases s with
    | req k p =>
      obtain ⟨v, v', tl, _, _, hr, rfl⟩ := runSpecs_req_inv h
      rcases List.mem_cons.mp hkv with rfl | hkv
      · simp [FSpec.key]
      · exact List.mem_cons_of_mem _ (ih hr kv hkv)
    | opt k p =>
      rcases runSpecs_opt_inv h with ⟨_, hr⟩ | ⟨v, v', tl, _, _, hr, rfl⟩
      · exact List.mem_cons_of_mem _ (ih hr kv hkv)
      · rcases List.mem_cons.mp hkv with rfl | hkv
        · simp [FSpec.key]
        · exact List.mem_cons_of_mem _ (ih hr kv hkv)
    | dflt k p d =>
      rcases runSpecs_dflt_inv h with ⟨tl, _, hr, rfl⟩ | ⟨v, v', tl, _, _, hr, rfl⟩
      · rcases List.mem_cons.mp hkv with rfl | hkv
        · simp [FSpec.key]
        · exact List.mem_cons_of_mem _ (ih hr kv hkv)
      · rcases List.mem_cons.mp hkv with rfl | hkv
        · simp [FSpec.key]
        · exact List.mem_cons_of_mem _ (ih hr kv hkv)

theorem runSpecs_cons_irrel {k : String} {v : Json} {kvs : List (String × Json)}
    {specs : List FSpec} (h : k ∉ specs.map FSpec.key) :
    runSpecs ((k, v) :: kvs) specs = runSpecs kvs specs := by
  induction specs with
  | nil => rfl
  | cons s rest ih =>
    simp only [List.map_cons, List.mem_cons] at h
    push_neg at h
    have hk : k ≠ s.key := h.1
    have hrest := ih h.2
    cases s with
    | req k₀ p =>
      simp only [FSpec.key] at hk
      simp only [runSpecs, lookupKey, if_neg hk, hrest]
    | opt k₀ p =>
      simp only [FSpec.key] at hk
      simp only [runSpecs, lookupKey, if_neg hk, hrest]
    | dflt k₀ p d =>
      simp only [FSpec.key] at hk
      simp only [runSpecs, lookupKey, if_neg hk, hrest]

theorem runSpecs_idem {kvs out : List (String × Json)} {specs : List FSpec}
    (hs : ∀ s ∈ specs, SpecOK s) (hk : (specs.map FSpec.key).Nodup)
    (h : runSpecs kvs specs = some out) : runSpecs out specs = some out := by
  induction specs generalizing out with
  | nil =>
    simp only [runSpecs, Option.some.injEq] at h
    subst h; rfl
  | cons s rest ih =>
    have hsr : ∀ s ∈ rest, SpecOK s := fun x hx => hs x (List.mem_cons_of_mem _ hx)
    have hknd : (rest.map FSpec.key).Nodup := (List.nodup_cons.mp hk).2
    have hkni : s.key ∉ rest.map FSpec.key := (List.nodup_cons.mp hk).1
    have hshd : SpecOK s := hs s (List.mem_cons_self _ _)
    cases s with
    | req k p =>
      obtain ⟨v, v', tl, hl, hp, hr, rfl⟩ := runSpecs_req_inv h
      have htl : runSpecs tl rest = some tl := ih hsr hknd hr
      have hci : runSpecs ((k, v') :: tl) rest = runSpecs tl rest :=
        runSpecs_cons_irrel hkni
      have hpp : p v' = some v' := hshd v v' hp
      simp [runSpecs, lookupKey, hpp, hci, htl]
    | opt k p =>
      rcases runSpecs_opt_inv h with ⟨hl, hr⟩ | ⟨v, v', tl, hl, hp, hr, rfl⟩
      · have hout : runSpecs out rest = some out := ih hsr hknd hr
        have hnk : k ∉ out.map Prod.fst := by
          intro hmem
          rcases List.mem_map.mp hmem with ⟨kv, hkv, hfst⟩
          exact hkni (hfst ▸ runSpecs_keys_sub hr kv hkv)
        simp only [runSpecs, lookupKey_eq_none_of_not_mem hnk, hout]
      · have htl : runSpecs tl rest = some tl := ih hsr hknd hr
        have hci : runSpecs ((k, v') :: tl) rest = runSpecs tl rest :=
          runSpecs_cons_irrel hkni
        have hpp : p v' = some v' := hshd v v' hp
        simp [runSpecs, lookupKey, hpp, hci, htl]
    | dflt k p d =>
      rcases runSpecs_dflt_inv h with ⟨tl, hl, hr, rfl⟩ | ⟨v, v', tl, hl, hp, hr, rfl⟩
      · have htl : runSpecs tl rest = some tl := ih hsr hknd hr
        have hci : runSpecs ((k, d) :: tl) rest = runSpecs tl rest :=
          runSpecs_cons_irrel hkni
        have hpd : p d = some d := hshd.2
        simp [runSpecs, lookupKey, hpd, hci, htl]
      · have htl : runSpecs tl rest = some tl := ih hsr hknd hr
        have hci : runSpecs ((k, v') :: tl) rest = runSpecs tl rest :=
          runSpecs_cons_irrel hkni
        have hpp : p v' = some v' := hshd.1 v v' hp
        simp [runSpecs, lookupKey, hpp, hci, htl]

/-- A strict object schema with distinct keys and idempotent field parsers is
itself idempotent. -/
theorem PIdem_strictObj {specs : List FSpec}
    (hk : (specs.map FSpec.key).Nodup) (hs : ∀ s ∈ specs, SpecOK s) :
    PIdem (strictObj specs) := by
  intro j o h
  cases j with
  | obj kvs =>
    simp only [strictObj] at h
    by_cases ha : allowedKeys specs kvs = true
    · rw [if_pos ha] at h
      cases hr : runSpecs kvs specs with
      | none => rw [hr] at h; exact absurd h (by simp)
      | some out =>
        rw [hr] at h
        simp only [Option.map_some', Option.some.injEq] at h
        subst h
        have hsub := runSpecs_keys_sub hr
        have ha' : allowedKeys specs out = true := by
          simp only [allowedKeys, List.all_eq_true]
          intro kv hkv
          simp only [List.any_eq_true]
          rcases List.mem_map.mp (hsub kv hkv) with ⟨sp, hsp, hkey⟩
          exact ⟨sp, hsp, by simp [hkey]⟩
        simp only [strictObj, if_pos ha', runSpecs_idem hs hk hr, Option.map_some']
    · rw [if_neg ha] at h
      exact absurd h (by simp)
  | null => exact absurd h (by simp [strictObj])
  | bool b => exact absurd h (by simp [strictObj])
  | num n => exact absurd h (by simp [strictObj])
  | str s => exact absurd h (by simp [strictObj])
  | arr xs => exact absurd h (by simp [strictObj])

/-- Looking up a required field's key in the normalized output recovers a
parser output for that field. -/
theorem runSpecs_req_lookup {kvs out : List (String × Json)} {specs : List FSpec}
    {k : String} {p : Json → Option Json}
    (hk : (specs.map FSpec.key).Nodup) (hmem : FSpec.req k p ∈ specs)
    (h : runSpecs kvs specs = some out) :
    ∃ v v', lookupKey out k = some v' ∧ p v = some v' := by
  induction specs generalizing out with
  | nil => cases hmem
  | cons s rest ih =>
    have hknd : (rest.map FSpec.key).Nodup := (List.nodup_cons.mp hk).2
    have hkni : s.key ∉ rest.map FSpec.key := (List.nodup_cons.mp hk).1
    rcases List.mem_cons.mp hmem with rfl | hmem'
    · obtain ⟨v, v', tl, hl, hp, hr, rfl⟩ := runSpecs_req_inv h
      exact ⟨v, v', by simp [lookupKey], hp⟩
    · have hkmem : k ∈ rest.map FSpec.key := List.mem_map.mpr ⟨FSpec.req k p, hmem', rfl⟩
      have hkne : k ≠ s.key := fun hkeq => hkni (hkeq ▸ hkmem)
      cases s with
      | req k0 p0 =>
        obtain ⟨v, v', tl, hl, hp, hr, rfl⟩ := runSpecs_req_inv h
        obtain ⟨w, w', hlw, hpw⟩ := ih hknd hmem' hr
        simp only [FSpec.key] at hkne
        exact ⟨w, w', by simp [lookupKey, if_neg (Ne.symm hkne), hlw], hpw⟩
      | opt k0 p0 =>
        rcases runSpecs_opt_inv h with ⟨hl, hr⟩ | ⟨v, v', tl, hl, hp, hr, rfl⟩
        · exact ih hknd hmem' hr
        · obtain ⟨w, w', hlw, hpw⟩ := ih hknd hmem' hr
          simp only [FSpec.key] at hkne
          exact ⟨w, w', by simp [lookupKey, if_neg (Ne.symm hkne), hlw], hpw⟩
      | dflt k0 p0 d =>
        rcases runSpecs_dflt_inv h with ⟨tl, hl, hr, rfl⟩ | ⟨v, v', tl, hl, hp, hr, rfl⟩
        · obtain ⟨w, w', hlw, hpw⟩ := ih hknd hmem' hr
          simp only [FSpec.key] at hkne
          exact ⟨w, w', by simp [lookupKey, if_neg (Ne.symm hkne), hlw], hpw⟩
        · obtain ⟨w, w', hlw, hpw⟩ := ih hknd hmem' hr
          simp only [FSpec.key] at hkne
          exact ⟨w, w', by simp [lookupKey, if_neg (Ne.symm hkne), hlw], hpw⟩

/- Idempotence of the primitive schemas. -/

theorem PIdem_pString : PIdem pString := by
  intro j o h
  unfold pString at h ⊢
  split at h
  next => simp only [Option.some.injEq] at h; subst h; rfl
  next => cases h

theorem PIdem_pBool : PIdem pBool := by
  intro j o h
  unfold pBool at h ⊢
  split at h
  next => simp only [Option.some.injEq] at h; subst h; rfl
  next => cases h

theorem PIdem_pNumber : PIdem pNumber := by
  intro j o h
  unfold pNumber at h ⊢
  split at h
  next => simp only [Option.some.injEq] at h; subst h; rfl
  next => cases h

theorem PIdem_pNumRange (lo hi : Rat) : PIdem (pNumRange lo hi) := by
  intro j o h
  unfold pNumRange at h ⊢
  split at h
  next n =>
    by_cases hc : lo ≤ n ∧ n ≤ hi
    · rw [if_pos hc] at h
      simp only [Option.some.injEq] at h
      subst h
      simp [hc]
    · rw [if_neg hc] at h; cases h
  next => cases h

theorem PIdem_pIntPositive : PIdem pIntPositive := by
  intro j o h
  unfold pIntPositive at h ⊢
  split at h
  next n =>
    by_cases hc : n.den = 1 ∧ 0 < n
    · rw [if_pos hc] at h
      simp only [Option.some.injEq] at h
      subst h
      simp [hc]
    · rw [if_neg hc] at h; cases h
  next => cases h

theorem PIdem_pEnum (vs : List String) : PIdem (pEnum vs) := by
  intro j o h
  unfold pEnum at h ⊢
  split at h
  next s =>
    by_cases hc : vs.contains s = true
    · rw [if_pos hc] at h
      simp only [Option.some.injEq] at h
      subst h
      simp only [hc]
      rfl
    · rw [if_neg hc] at h; cases h
  next => cases h

theorem PIdem_pLiteral (v : String) : PIdem (pLiteral v) := PIdem_pEnum [v]

theorem PIdem_pURL : PIdem pURL := by
  intro j o h
  unfold pURL at h ⊢
  split at h
  next s =>
    by_cases hc : isURL s = true
    · rw [if_pos hc] at h
      simp only [Option.some.injEq] at h
      subst h
      simp [hc]
    · rw [if_neg hc] at h; cases h
  next => cases h

theorem PIdem_pDatetime : PIdem pDatetime := by
  intro j o h
  unfold pDatetime at h ⊢
  split at h
  next s =>
    by_cases hc : isDatetime s = true
    · rw [if_pos hc] at h
      simp only [Option.some.injEq] at h
      subst h
      simp [hc]
    · rw [if_neg hc] at h; cases h
  next => cases h

theorem PIdem_pUnknown : PIdem pUnknown := by
  intro j o h
  simp_all [pUnknown]

theorem PIdem_pTuple3Num : PIdem pTuple3Num := by
  intro j o h
  unfold pTuple3Num at h ⊢
  split at h
  next => simp only [Option.some.injEq] at h; subst h; rfl
  next hne =>
    cases h

theorem mapMList_idem {p : Json → Option Json} (hp : PIdem p) :
    ∀ {xs ys : List Json}, mapMList p xs = some ys → mapMList p ys = some ys := by
  intro xs
  induction xs with
  | nil =>
    intro ys h
    simp only [mapMList, Option.some.injEq] at h
    subst h; rfl
  | cons x xs ih =>
    intro ys h
    cases hx : p x with
    | none => simp [mapMList, hx] at h
    | some y =>
      cases hr : mapMList p xs with
      | none => simp [mapMList, hx, hr] at h
      | some ys' =>
        simp only [mapMList, hx, hr, Option.map_some', Option.some.injEq] at h
        subst h
        simp only [mapMList, hp x y hx, ih hr, Option.map_some']

theorem mapMList_mem {p : Json → Option Json} :
    ∀ {xs ys : List Json}, mapMList p xs = some ys → ∀ y ∈ ys, ∃ x, p x = some y := by
  intro xs
  induction xs with
  | nil =>
    intro ys h y hy
    simp only [mapMList, Option.some.injEq] at h
    subst h; cases hy
  | cons x xs ih =>
    intro ys h y hy
    cases hx : p x with
    | none => simp [mapMList, hx] at h
    | some y' =>
      cases hr : mapMList p xs with
      | none => simp [mapMList, hx, hr] at h
      | some ys' =>
        simp only [mapMList, hx, hr, Option.map_some', Option.some.injEq] at h
        subst h
        rcases List.mem_cons.mp hy with rfl | hy'
        · exact ⟨x, hx⟩
        · exact ih hr y hy'

theorem PIdem_pArray {p : Json → Option Json} (hp : PIdem p) : PIdem (pArray p) := by
  intro j o h
  cases j with
  | arr xs =>
    cases hm : mapMList p xs with
    | none => simp [pArray, hm] at h
    | some ys =>
      simp only [pArray, hm, Option.map_some', Option.some.injEq] at h
      subst h
      simp only [pArray, mapMList_idem hp hm, Option.map_some']
  | null => simp [pArray] at h
  | bool b => simp [pArray] at h
  | num n => simp [pArray] at h
  | str s => simp [pArray] at h
  | obj kvs => simp [pArray] at h

theorem mapMPairs_idem {p : Json → Option Json} (hp : PIdem p) :
    ∀ {xs ys : List (String × Json)}, mapMPairs p xs = some ys → mapMPairs p ys = some ys := by
  intro xs
  induction xs with
  | nil =>
    intro ys h
    simp only [mapMPairs, Option.some.injEq] at h
    subst h; rfl
  | cons kv xs ih =>
    intro ys h
    obtain ⟨k, v⟩ := kv
    cases hx : p v with
    | none => simp [mapMPairs, hx] at h
    | some v' =>
      cases hr : mapMPairs p xs with
      | none => simp [mapMPairs, hx, hr] at h
      | some ys' =>
        simp only [mapMPairs, hx, hr, Option.map_some', Option.some.injEq] at h
        subst h
        simp only [mapMPairs, hp v v' hx, ih hr, Option.map_some']

theorem PIdem_pRecord {p : Json → Option Json} (hp : PIdem p) : PIdem (pRecord p) := by
  intro j o h
  cases j with
  | obj kvs =>
    cases hm : mapMPairs p kvs with
    | none => simp [pRecord, hm] at h
    | some ys =>
      simp only [pRecord, hm, Option.map_some', Option.some.injEq] at h
      subst h
      simp only [pRecord, mapMPairs_idem hp hm, Option.map_some']
  | null => simp [pRecord] at h
  | bool b => simp [pRecord] at h
  | num n => simp [pRecord] at h
  | str s => simp [pRecord] at h
  | arr xs => simp [pRecord] at h

/- ========================================================================
   Idempotence of the concrete schemas.
   ======================================================================== -/

theorem specsOK_nil : ∀ x ∈ ([] : List FSpec), SpecOK x := by
  intro x hx; cases hx

theorem specsOK_cons {s : FSpec} {rest : List FSpec}
    (h1 : SpecOK s) (h2 : ∀ x ∈ rest, SpecOK x) : ∀ x ∈ s :: rest, SpecOK x := by
  intro x hx
  rcases List.mem_cons.mp hx with rfl | hx'
  · exact h1
  · exact h2 x hx'

theorem strictObj_out_obj {specs : List FSpec} {j o : Json}
    (h : strictObj specs j = some o) :
    ∃ kvs okvs, j = .obj kvs ∧ o = .obj okvs ∧ runSpecs kvs specs = some okvs := by
  cases j with
  | obj kvs =>
    simp only [strictObj] at h
    by_cases ha : allowedKeys specs kvs = true
    · rw [if_pos ha] at h
      cases hr : runSpecs kvs specs with
      | none => rw [hr] at h; cases h
      | some okvs =>
        rw [hr] at h
        simp only [Option.map_some', Option.some.injEq] at h
        exact ⟨kvs, okvs, rfl, h.symm, hr⟩
    · rw [if_neg ha] at h; cases h
  | null => cases h
  | bool b => cases h
  | num n => cases h
  | str s => cases h
  | arr xs => cases h

theorem pLiteral_out {t : String} {w v : Json} (h : pLiteral t w = some v) :
    v = .str t := by
  unfold pLiteral pEnum at h
  split at h
  next s =>
    by_cases hc : [t].contains s = true
    · rw [if_pos hc] at h
      simp only [Option.some.injEq] at h
      simp only [List.contains_cons, List.contains_nil, Bool.or_false, beq_iff_eq] at hc
      subst hc
      exact h.symm
    · rw [if_neg hc] at h; cases h
  next => cases h

theorem pArray_out {p : Json → Option Json} {v v' : Json}
    (h : pArray p v = some v') :
    ∃ xs ss, v = .arr xs ∧ v' = .arr ss ∧ mapMList p xs = some ss := by
  cases v with
  | arr xs =>
    cases hm : mapMList p xs with
    | none => simp [pArray, hm] at h
    | some ss =>
      simp only [pArray, hm, Option.map_some', Option.some.injEq] at h
      exact ⟨xs, ss, rfl, h.symm, hm⟩
  | null => cases h
  | bool b => cases h
  | num n => cases h
  | str s => cases h
  | obj kvs => cases h

/- Field variant obligations. -/

theorem textFieldSpecs_ok : ∀ x ∈ textFieldSpecs, SpecOK x :=
  specsOK_cons PIdem_pString (specsOK_cons (PIdem_pLiteral "text")
    (specsOK_cons PIdem_pString specsOK_nil))

theorem richTextFieldSpecs_ok : ∀ x ∈ richTextFieldSpecs, SpecOK x :=
  specsOK_cons PIdem_pString (specsOK_cons (PIdem_pLiteral "richText")
    (specsOK_cons PIdem_pString (specsOK_cons (PIdem_pEnum fieldFormatEnum) specsOK_nil)))

theorem imageOptimizationSpecs_ok : ∀ x ∈ imageOptimizationSpecs, SpecOK x :=
  specsOK_cons PIdem_pNumber (specsOK_cons (PIdem_pEnum _)
    (specsOK_cons (PIdem_pArray PIdem_pString) (specsOK_cons (PIdem_pEnum _) specsOK_nil)))

theorem imageFieldSpecs_ok : ∀ x ∈ imageFieldSpecs, SpecOK x :=
  specsOK_cons PIdem_pString (specsOK_cons (PIdem_pLiteral "image")
    (specsOK_cons PIdem_pURL (specsOK_cons PIdem_pString
    (specsOK_cons PIdem_pNumber (specsOK_cons PIdem_pNumber
    (specsOK_cons (PIdem_strictObj (by decide) imageOptimizationSpecs_ok) specsOK_nil))))))

theorem ctaFieldSpecs_ok : ∀ x ∈ ctaFieldSpecs, SpecOK x :=
  specsOK_cons PIdem_pString (specsOK_cons (PIdem_pLiteral "cta")
    (specsOK_cons PIdem_pString (specsOK_cons PIdem_pURL
    (specsOK_cons (PIdem_pEnum _) (specsOK_cons (PIdem_pEnum _)
    (specsOK_cons PIdem_pString (specsOK_cons (PIdem_pEnum _) specsOK_nil)))))))

theorem formFieldEntrySpecs_ok : ∀ x ∈ formFieldEntrySpecs, SpecOK x :=
  specsOK_cons PIdem_pString (specsOK_cons PIdem_pString
    (specsOK_cons (PIdem_pEnum _) (specsOK_cons PIdem_pBool
    (specsOK_cons PIdem_pString specsOK_nil))))

theorem formFieldSpecs_ok : ∀ x ∈ formFieldSpecs, SpecOK x :=
  specsOK_cons PIdem_pString (specsOK_cons (PIdem_pLiteral "form")
    (specsOK_cons (PIdem_pArray (PIdem_strictObj (by decide) formFieldEntrySpecs_ok)) specsOK_nil))

theorem serviceFieldSpecs_ok : ∀ x ∈ serviceFieldSpecs, SpecOK x :=
  specsOK_cons PIdem_pString (specsOK_cons (PIdem_pLiteral "service")
    (specsOK_cons PIdem_pString (specsOK_cons PIdem_pString
    (specsOK_cons PIdem_pNumber (specsOK_cons PIdem_pNumber
    (specsOK_cons PIdem_pURL specsOK_nil))))))

theorem aiPromptFieldSpecs_ok : ∀ x ∈ aiPromptFieldSpecs, SpecOK x :=
  specsOK_cons PIdem_pString (specsOK_cons (PIdem_pLiteral "aiPrompt")
    (specsOK_cons PIdem_pString (specsOK_cons ⟨PIdem_pRecord PIdem_pString, rfl⟩
    (specsOK_cons ⟨PIdem_pArray PIdem_pString, rfl⟩
    (specsOK_cons ⟨PIdem_pString, rfl⟩ (specsOK_cons ⟨PIdem_pString, rfl⟩ specsOK_nil))))))

/-- Every field variant has distinct keys, idempotent field parsers, and a
required literal `type` tag equal to its dispatch key. -/
theorem fieldVariants_ok : ∀ v ∈ fieldVariants,
    ((v.2.map FSpec.key).Nodup ∧ (∀ x ∈ v.2, SpecOK x)) ∧
      FSpec.req "type" (pLiteral v.1) ∈ v.2 := by
  intro v hv
  simp only [fieldVariants, List.mem_cons, List.not_mem_nil, or_false] at hv
  rcases hv with rfl | rfl | rfl | rfl | rfl | rfl | rfl
  · exact ⟨⟨by decide, textFieldSpecs_ok⟩, List.Mem.tail _ (List.Mem.head _)⟩
  · exact ⟨⟨by decide, richTextFieldSpecs_ok⟩, List.Mem.tail _ (List.Mem.head _)⟩
  · exact ⟨⟨by decide, imageFieldSpecs_ok⟩, List.Mem.tail _ (List.Mem.head _)⟩
  · exact ⟨⟨by decide, ctaFieldSpecs_ok⟩, List.Mem.tail _ (List.Mem.head _)⟩
  · exact ⟨⟨by decide, formFieldSpecs_ok⟩, List.Mem.tail _ (List.Mem.head _)⟩
  · exact ⟨⟨by decide, serviceFieldSpecs_ok⟩, List.Mem.tail _ (List.Mem.head _)⟩
  · exact ⟨⟨by decide, aiPromptFieldSpecs_ok⟩, List.Mem.tail _ (List.Mem.head _)⟩

theorem PIdem_fieldSchema : PIdem fieldSchema := by
  intro j o h
  cases j with
  | obj kvs =>
    simp only [fieldSchema] at h
    cases hl : lookupKey kvs "type" with
    | none => simp [hl] at h
    | some tv =>
      cases tv with
      | str t =>
        simp only [hl] at h
        cases hf : fieldVariants.find? (fun x => x.1 == t) with
        | none => simp [hf] at h
        | some v =>
          simp only [hf] at h
          have hv := List.mem_of_find?_eq_some hf
          have ht : v.1 = t := by simpa using List.find?_some hf
          obtain ⟨⟨hnd, hok⟩, hmem⟩ := fieldVariants_ok _ hv
          obtain ⟨kvs', okvs, heq, rfl, hrs⟩ := strictObj_out_obj h
          obtain ⟨w, w', hlook, hpl⟩ := runSpecs_req_lookup hnd hmem hrs
          have hw' := pLiteral_out hpl
          subst hw'
          rw [ht] at hlook
          simp only [fieldSchema, hlook, hf]
          exact PIdem_strictObj hnd hok _ _ h
      | null => simp [hl] at h
      | bool b => simp [hl] at h
      | num n => simp [hl] at h
      | arr xs => simp [hl] at h
      | obj kvs2 => simp [hl] at h
  | null => cases h
  | bool b => cases h
  | num n => cases h
  | str s => cases h
  | arr xs => cases h

/- Section / locale / page schema obligations. -/

theorem schemaBlockSpecs_ok : ∀ x ∈ schemaBlockSpecs, SpecOK x :=
  specsOK_cons PIdem_pString (specsOK_cons (PIdem_pRecord PIdem_pUnknown) specsOK_nil)

theorem sectionStyleSpecs_ok : ∀ x ∈ sectionStyleSpecs, SpecOK x :=
  specsOK_cons (PIdem_pEnum _) (specsOK_cons (PIdem_pEnum _)
    (specsOK_cons (PIdem_pEnum _) (specsOK_cons (PIdem_pEnum _) specsOK_nil)))

theorem trackingEventSpecs_ok : ∀ x ∈ trackingEventSpecs, SpecOK x :=
  specsOK_cons PIdem_pString (specsOK_cons (PIdem_pRecord PIdem_pUnknown) specsOK_nil)

theorem sectionTrackingSpecs_ok : ∀ x ∈ sectionTrackingSpecs, SpecOK x :=
  specsOK_cons PIdem_pString
    (specsOK_cons (PIdem_pArray (PIdem_strictObj (by decide) trackingEventSpecs_ok)) specsOK_nil)

theorem sectionSeoSpecs_ok : ∀ x ∈ sectionSeoSpecs, SpecOK x :=
  specsOK_cons PIdem_pString (specsOK_cons PIdem_pString
    (specsOK_cons (PIdem_strictObj (by decide) schemaBlockSpecs_ok) specsOK_nil))

theorem sectionSpecs_ok : ∀ x ∈ sectionSpecs, SpecOK x :=
  specsOK_cons PIdem_pString (specsOK_cons (PIdem_pEnum _)
    (specsOK_cons (PIdem_pRecord PIdem_fieldSchema)
    (specsOK_cons (PIdem_strictObj (by decide) sectionStyleSpecs_ok)
    (specsOK_cons (PIdem_strictObj (by decide) sectionTrackingSpecs_ok)
    (specsOK_cons (PIdem_strictObj (by decide) sectionSeoSpecs_ok) specsOK_nil)))))

theorem sectionSpecs_keys_nodup : (sectionSpecs.map FSpec.key).Nodup := by decide

theorem PIdem_sectionSchema : PIdem sectionSchema :=
  PIdem_strictObj sectionSpecs_keys_nodup sectionSpecs_ok

theorem localeSpecs_ok : ∀ x ∈ localeSpecs, SpecOK x :=
  specsOK_cons ⟨PIdem_pString, rfl⟩ (specsOK_cons PIdem_pString
    (specsOK_cons (PIdem_pRecord PIdem_pString) specsOK_nil))

theorem pageMetaRobotsSpecs_ok : ∀ x ∈ pageMetaRobotsSpecs, SpecOK x :=
  specsOK_cons PIdem_pBool (specsOK_cons PIdem_pBool (specsOK_cons PIdem_pBool specsOK_nil))

theorem pageMetaSpecs_ok : ∀ x ∈ pageMetaSpecs, SpecOK x :=
  specsOK_cons PIdem_pString (specsOK_cons PIdem_pString
    (specsOK_cons PIdem_pURL
    (specsOK_cons (PIdem_strictObj (by decide) schemaBlockSpecs_ok)
    (specsOK_cons (PIdem_strictObj (by decide) pageMetaRobotsSpecs_ok) specsOK_nil))))

theorem pIntPositive_one : pIntPositive (.num 1) = some (.num 1) := by
  unfold pIntPositive
  norm_num

theorem pageSpecs_ok : ∀ x ∈ pageSpecs, SpecOK x :=
  specsOK_cons PIdem_pString (specsOK_cons (PIdem_pEnum _)
    (specsOK_cons PIdem_pString (specsOK_cons (PIdem_pEnum _)
    (specsOK_cons (PIdem_pEnum _)
    (specsOK_cons (PIdem_strictObj (by decide) pageMetaSpecs_ok)
    (specsOK_cons (PIdem_pArray PIdem_sectionSchema)
    (specsOK_cons PIdem_pUnknown
    (specsOK_cons (PIdem_strictObj (by decide) localeSpecs_ok)
    (specsOK_cons ⟨PIdem_pArray PIdem_pString, rfl⟩
    (specsOK_cons ⟨PIdem_pArray PIdem_pString, rfl⟩
    (specsOK_cons ⟨PIdem_pIntPositive, pIntPositive_one⟩
    (specsOK_cons PIdem_pDatetime
    (specsOK_cons PIdem_pString
    (specsOK_cons PIdem_pDatetime
    (specsOK_cons PIdem_pString specsOK_nil)))))))))))))))

theorem pageSpecs_keys_nodup : (pageSpecs.map FSpec.key).Nodup := by decide

theorem PIdem_pageSchema : PIdem pageSchema :=
  PIdem_strictObj pageSpecs_keys_nodup pageSpecs_ok

/-- The key fact behind claim C9: the `sections` of a page that passed
`pageSchema` are already normalized `sectionSchema` outputs, so each of them
re-parses to itself. -/
theorem pageSchema_sections_idem {j vp : Json} (h : pageSchema j = some vp) :
    ∀ s ∈ sectionsOf vp, sectionSchema s = some s := by
  obtain ⟨kvs, okvs, rfl, rfl, hrs⟩ := strictObj_out_obj h
  have hmem : FSpec.req "sections" (pArray sectionSchema) ∈ pageSpecs := by
    unfold pageSpecs
    exact List.Mem.tail _ (List.Mem.tail _ (List.Mem.tail _ (List.Mem.tail _
      (List.Mem.tail _ (List.Mem.tail _ (List.Mem.head _))))))
  obtain ⟨w, w', hlook, hpa⟩ := runSpecs_req_lookup pageSpecs_keys_nodup hmem hrs
  obtain ⟨xs, ss, rfl, rfl, hml⟩ := pArray_out hpa
  intro s hs
  have hsecs : sectionsOf (.obj okvs) = ss := by
    simp only [sectionsOf, readProp, objBindings, hlook]
  rw [hsecs] at hs
  obtain ⟨x, hx⟩ := mapMList_mem hml s hs
  exact PIdem_sectionSchema x s hx

/-- If every element of `ss` re-parses to itself, the step-2 loop succeeds
from any starting index. -/
theorem validateSections_ok {ss : List Json}
    (h : ∀ s ∈ ss, sectionSchema s = some s) :
    ∀ i, validateSections i ss = .ok () := by
  induction ss with
  | nil => intro i; rfl
  | cons s rest ih =>
    intro i
    have hs := h s (List.mem_cons_self _ _)
    simp only [validateSections, validateSafely, hs]
    exact ih (fun x hx => h x (List.mem_cons_of_mem _ hx)) (i + 1)

/-- The step-2 loop fails at the first failing index with the exact
code `INVALID_SECTION_{index}`. -/
theorem validateSections_first_fail {ss : List Json} {k : Nat}
    (hk : k < ss.length)
    (hfail : sectionSchema (ss.getD k .null) = none)
    (hpass : ∀ m, m < k → sectionSchema (ss.getD m .null) ≠ none) :
    ∀ i, validateSections i ss =
      .error (.validationError "Validation failed" ("INVALID_SECTION_" ++ toString (i + k))) := by
  induction ss generalizing k with
  | nil => exact absurd hk (by simp)
  | cons s rest ih =>
    intro i
    cases k with
    | zero =>
      simp only [List.getD, List.get?, Option.getD] at hfail
      simp only [validateSections, validateSafely, hfail, Nat.add_zero]
    | succ k' =>
      have hs : sectionSchema s ≠ none := by
        have := hpass 0 (Nat.succ_pos _)
        simpa using this
      cases hsv : sectionSchema s with
      | none => exact absurd hsv hs
      | some v =>
        have hk' : k' < rest.length := by simpa using hk
        have hfail' : sectionSchema (rest.getD k' .null) = none := by simpa using hfail
        have hpass' : ∀ m, m < k' → sectionSchema (rest.getD m .null) ≠ none := by
          intro m hm
          have := hpass (m + 1) (by omega)
          simpa using this
        have harith : i + 1 + k' = i + (k' + 1) := by omega
        have hrec := ih hk' hfail' hpass' (i + 1)
        rw [harith] at hrec
        simp only [validateSections, validateSafely, hsv, hrec]

/- ========================================================================
   Claims C4 and C9: the three-step validation gate and the unreachability
   of per-section validation failures.
   ======================================================================== -/

theorem validateSafely_ok {p : Json → Option Json} {d : Json} {c : String} {v : Json}
    (h : validateSafely p d c = .ok v) : p d = some v := by
  unfold validateSafely at h
  cases hp : p d with
  | none => rw [hp] at h; cases h
  | some w => rw [hp] at h; simpa using h

theorem validateSafely_error {p : Json → Option Json} {d : Json} {c : String} {e : CoreErr}
    (h : validateSafely p d c = .error e) :
    e = .validationError "Validation failed" c ∧ p d = none := by
  unfold validateSafely at h
  cases hp : p d with
  | none => rw [hp] at h; exact ⟨(Except.error.inj h).symm, rfl⟩
  | some w => rw [hp] at h; cases h

theorem resolveLoop_error_shape {shared : List (String × Json)} :
    ∀ {refs : List Json} {acc : List Json} {seen : List String} {e : CoreErr},
      resolveLoop shared refs acc seen = .error e →
      ∃ c, e = .validationError "INVALID_REF_ID" c := by
  intro refs
  induction refs with
  | nil => intro acc seen e h; cases h
  | cons r rest ih =>
    intro acc seen e h
    cases r with
    | str refId =>
      simp only [resolveLoop] at h
      cases hf : shared.find? (fun sh => sh.1 == refId) with
      | none =>
        simp only [hf] at h
        exact ih h
      | some sh =>
        simp only [hf] at h
        by_cases h1 : (sectionSchema sh.2).isSome = true
        · rw [if_pos h1] at h
          by_cases h2 : seen.contains refId = true
          · rw [if_pos h2] at h
            exact ih h
          · rw [if_neg h2] at h
            exact ih h
        · rw [if_neg h1] at h
          exact ih h
    | null => simp only [resolveLoop, Except.error.injEq] at h; exact ⟨_, h.symm⟩
    | bool b => simp only [resolveLoop, Except.error.injEq] at h; exact ⟨_, h.symm⟩
    | num n => simp only [resolveLoop, Except.error.injEq] at h; exact ⟨_, h.symm⟩
    | arr xs => simp only [resolveLoop, Except.error.injEq] at h; exact ⟨_, h.symm⟩
    | obj kvs => simp only [resolveLoop, Except.error.injEq] at h; exact ⟨_, h.symm⟩

theorem resolveSharedSections_error_shape {fl : Bool} {shared : List (String × Json)}
    {page : Json} {e : CoreErr}
    (h : resolveSharedSections fl shared page = .error e) :
    (∃ c, e = .validationError "PAGE_REQUIRED" c) ∨
    (∃ c, e = .validationError "INVALID_SHARED_REFS" c) ∨
    (∃ c, e = .validationError "INVALID_REF_ID" c) := by
  unfold resolveSharedSections at h
  by_cases h1 : jsTruthy page = true
  · simp only [h1, Bool.not_true, Bool.false_eq_true, if_false] at h
    by_cases h2 : (!fl || shared.length == 0) = true
    · rw [if_pos h2] at h; cases h
    · rw [if_neg h2] at h
      cases hr : readProp page "sharedSectionRefs" with
      | none =>
        simp only [hr, Except.error.injEq] at h
        exact Or.inr (Or.inl ⟨_, h.symm⟩)
      | some v =>
        cases v with
        | arr refs =>
          simp only [hr] at h
          cases hl : resolveLoop shared refs
              (match readProp page "sections" with
               | some (.arr ss) => ss
               | _ => []) [] with
          | error e' =>
            simp only [hl, Except.error.injEq] at h
            subst h
            exact Or.inr (Or.inr (resolveLoop_error_shape hl))
          | ok ns => simp only [hl] at h; cases h
        | null => simp only [hr, Except.error.injEq] at h; exact Or.inr (Or.inl ⟨_, h.symm⟩)
        | bool b => simp only [hr, Except.error.injEq] at h; exact Or.inr (Or.inl ⟨_, h.symm⟩)
        | num n => simp only [hr, Except.error.injEq] at h; exact Or.inr (Or.inl ⟨_, h.symm⟩)
        | str s => simp only [hr, Except.error.injEq] at h; exact Or.inr (Or.inl ⟨_, h.symm⟩)
        | obj kvs => simp only [hr, Except.error.injEq] at h; exact Or.inr (Or.inl ⟨_, h.symm⟩)
  · have h1' : jsTruthy page = false := by
      cases hjt : jsTruthy page
      · rfl
      · exact absurd hjt h1
    simp only [h1', Bool.not_false, if_true, Except.error.injEq] at h
    exact Or.inl ⟨_, h.symm⟩

theorem invalid_page_structure_ne_section (i : Nat) :
    "INVALID_PAGE_STRUCTURE" ≠ "INVALID_SECTION_" ++ toString i := by
  intro h
  have hdata := congrArg (fun s => s.data.take 16) h
  simp only [String.data_append] at hdata
  have hlen : "INVALID_SECTION_".data.length = 16 := by decide
  rw [show (16 : Nat) = "INVALID_SECTION_".data.length from hlen.symm,
      List.take_left] at hdata
  exact absurd hdata (by decide)

/-- C4: `validatePage` is a three-step hard gate: an input failing the Page
schema throws `ValidationError` with code `INVALID_PAGE_STRUCTURE` and never
reaches per-section validation (the error is exactly the step-1 error); and
when per-section validation first fails at index `k`, the thrown error's
code is exactly `INVALID_SECTION_{k}`. -/
theorem C4_validatePage_hard_gate :
    (∀ (fl : Bool) (shared : List (String × Json)) (page : Json) (rs : Bool),
       pageSchema page = none →
       validatePage fl shared page rs =
         .error (.validationError "Validation failed" "INVALID_PAGE_STRUCTURE"))
    ∧ (∀ (ss : List Json) (k : Nat), k < ss.length →
        sectionSchema (ss.getD k .null) = none →
        (∀ m, m < k → sectionSchema (ss.getD m .null) ≠ none) →
        validateSections 0 ss =
          .error (.validationError "Validation failed" ("INVALID_SECTION_" ++ toString k))) := by
  constructor
  · intro fl shared page rs h
    unfold validatePage validateSafely
    simp [h]
  · intro ss k hk hfail hpass
    have := validateSections_first_fail hk hfail hpass 0
    simpa using this

/-- Witness for C4 at concrete inputs: `null` is structurally invalid, and a
section list whose first element is invalid fails with `INVALID_SECTION_0`. -/
theorem C4_witness :
    validatePage false [] .null false =
      .error (.validationError "Validation failed" "INVALID_PAGE_STRUCTURE")
    ∧ validateSections 0 [.null] =
        .error (.validationError "Validation failed" "INVALID_SECTION_0") := by
  constructor
  · exact C4_validatePage_hard_gate.1 false [] .null false rfl
  · have := C4_validatePage_hard_gate.2 [.null] 0 (by decide) rfl
      (fun m hm => absurd hm (by omega))
    simpa using this

/-- C9: per-section validation (step 2) can never fail on a page that passed
step 1 — the Page schema already normalizes every section, and normalized
sections re-parse to themselves — so no `INVALID_SECTION_{i}` error is ever
thrown by `validatePage` for any input. -/
theorem C9_invalid_section_unreachable :
    (∀ j vp, pageSchema j = some vp → validateSections 0 (sectionsOf vp) = .ok ())
    ∧ (∀ (fl : Bool) (shared : List (String × Json)) (j : Json) (rs : Bool)
         (i : Nat) (e : CoreErr),
        validatePage fl shared j rs = .error e →
        e ≠ .validationError "Validation failed" ("INVALID_SECTION_" ++ toString i)) := by
  constructor
  · intro j vp h
    exact validateSections_ok (pageSchema_sections_idem h) 0
  · intro fl shared j rs i e h hcontra
    subst hcontra
    unfold validatePage at h
    cases hv : validateSafely pageSchema j "INVALID_PAGE_STRUCTURE" with
    | error e' =>
      simp only [hv, Except.error.injEq] at h
      obtain ⟨he', _⟩ := validateSafely_error hv
      have hcode : "INVALID_PAGE_STRUCTURE" = "INVALID_SECTION_" ++ toString i := by
        have hco := he'.symm.trans h
        injection hco with h1 h2
      exact invalid_page_structure_ne_section i hcode
    | ok vp =>
      simp only [hv] at h
      have hps : pageSchema j = some vp := validateSafely_ok hv
      have hsec : validateSections 0 (sectionsOf vp) = .ok () :=
        validateSections_ok (pageSchema_sections_idem hps) 0
      simp only [hsec] at h
      cases rs with
      | false => simp at h
      | true =>
        rw [if_pos rfl] at h
        rcases resolveSharedSections_error_shape h with ⟨c, hc⟩ | ⟨c, hc⟩ | ⟨c, hc⟩ <;>
          simp [CoreErr.validationError.injEq] at hc

/-- Witness for C9: the example page passes step 1 and its sections then all
re-validate (first part); a concrete `validatePage` failure is not an
`INVALID_SECTION_{i}` error (second part). -/
theorem C9_witness :
    validateSections 0 (sectionsOf pageNormEx) = .ok ()
    ∧ CoreErr.validationError "Validation failed" "INVALID_PAGE_STRUCTURE" ≠
        .validationError "Validation failed" ("INVALID_SECTION_" ++ toString 0) :=
  ⟨C9_invalid_section_unreachable.1 pageJsonEx pageNormEx (by rfl),
   C9_invalid_section_unreachable.2 false [] .null false 0 _ (by rfl)⟩

/- ========================================================================
   Claims C5 and C10: shared-section resolution.
   ======================================================================== -/

theorem dedupFirst_filter_ne (a : String) :
    ∀ l : List String,
      dedupFirst (l.filter (fun y => y != a)) =
        (dedupFirst l).filter (fun y => y != a) := by
  intro l
  induction l using dedupFirst.induct with
  | case1 => simp [dedupFirst]
  | case2 x xs ih =>
    by_cases hxa : x = a
    · subst hxa
      have hfa : (x :: xs).filter (fun y => y != x) = xs.filter (fun y => y != x) := by
        simp [List.filter_cons]
      rw [hfa]
      rw [dedupFirst]
      rw [List.filter_cons_of_neg (by simp)]
      have hfilter : (dedupFirst (xs.filter (fun y => y != x))).filter (fun y => y != x) =
          dedupFirst ((xs.filter (fun y => y != x)).filter (fun y => y != x)) := ih.symm
      rw [hfilter, List.filter_filter]
      congr 1
      apply List.filter_congr
      intro y hy
      simp [Bool.and_self]
    · have hfa : (x :: xs).filter (fun y => y != a) =
          x :: xs.filter (fun y => y != a) := by
        simp [List.filter_cons, hxa]
      rw [hfa, dedupFirst, dedupFirst]
      rw [List.filter_cons_of_pos (by simp [hxa])]
      congr 1
      rw [← ih]
      congr 1
      rw [List.filter_filter, List.filter_filter]
      apply List.filter_congr
      intro y hy
      simp [Bool.and_comm]

theorem filterMap_filter_ne_of_none {β : Type} (res : String → Option β) (r : String)
    (hres : res r = none) :
    ∀ l : List String, (l.filter (fun y => y != r)).filterMap res = l.filterMap res := by
  intro l
  induction l with
  | nil => rfl
  | cons y ys ih =>
    by_cases hyr : y = r
    · subst hyr
      rw [List.filter_cons_of_neg (by simp)]
      rw [ih, List.filterMap_cons, hres]
    · rw [List.filter_cons_of_pos (by simp [hyr])]
      rw [List.filterMap_cons, List.filterMap_cons]
      cases res y <;> simp [ih]

theorem filter_filter_ne_of_false (P : String → Bool) (r : String) (hP : P r = false) :
    ∀ l : List String, (l.filter (fun y => y != r)).filter P = l.filter P := by
  intro l
  induction l with
  | nil => rfl
  | cons y ys ih =>
    by_cases hyr : y = r
    · subst hyr
      rw [List.filter_cons_of_neg (by simp)]
      rw [ih, List.filter_cons_of_neg (by simp [hP])]
    · rw [List.filter_cons_of_pos (by simp [hyr])]
      rw [List.filter_cons, List.filter_cons]
      cases hp : P y <;> simp [ih]

theorem filter_not_contains_cons (seen : List String) (r : String) :
    ∀ l : List String,
      l.filter (fun y => !((r :: seen).contains y)) =
        (l.filter (fun y => y != r)).filter (fun y => !(seen.contains y)) := by
  intro l
  rw [List.filter_filter]
  apply List.filter_congr
  intro y hy
  simp only [List.contains_cons, Bool.not_or]
  cases hyr : y == r <;> cases hcs : seen.contains y <;> simp [bne, hyr, hcs]

theorem filter_swap (p q : String → Bool) (l : List String) :
    (l.filter p).filter q = (l.filter q).filter p := by
  rw [List.filter_filter, List.filter_filter]
  apply List.filter_congr
  intro y hy
  simp [Bool.and_comm]

/-- The resolution loop, on a ref list of strings, equals first-occurrence
deduplication (relative to the already-seen set) composed with per-id
resolution, appended to the accumulator. -/
theorem resolveLoop_eq_dedup (shared : List (String × Json)) :
    ∀ (strs : List String) (acc : List Json) (seen : List String),
      resolveLoop shared (strs.map Json.str) acc seen =
        .ok (acc ++
          ((dedupFirst strs).filter (fun x => !(seen.contains x))).filterMap
            (resolveOneShared shared)) := by
  intro strs
  induction strs with
  | nil => intro acc seen; simp [resolveLoop, dedupFirst]
  | cons r rs ih =>
    intro acc seen
    have hB :
        (((dedupFirst (r :: rs)).filter (fun x => !(seen.contains x))).filterMap
            (resolveOneShared shared)) =
        (if r ∈ seen then
          ((dedupFirst rs).filter (fun x => !(seen.contains x))).filterMap
            (resolveOneShared shared)
         else
          match resolveOneShared shared r with
          | none =>
            ((dedupFirst rs).filter (fun x => !(seen.contains x))).filterMap
              (resolveOneShared shared)
          | some v =>
            v :: ((dedupFirst rs).filter (fun x => !((r :: seen).contains x))).filterMap
              (resolveOneShared shared)) := by
      rw [dedupFirst]
      by_cases hc : r ∈ seen
      · rw [if_pos hc]
        rw [List.filter_cons_of_neg (by simp [hc])]
        rw [dedupFirst_filter_ne]
        rw [filter_filter_ne_of_false _ _ (by simp [hc])]
      · rw [if_neg hc]
        rw [List.filter_cons_of_pos (by simp [hc])]
        rw [List.filterMap_cons]
        cases hr : resolveOneShared shared r with
        | none =>
          rw [dedupFirst_filter_ne]
          rw [filter_swap]
          rw [filterMap_filter_ne_of_none _ _ hr]
        | some v =>
          rw [dedupFirst_filter_ne]
          rw [filter_not_contains_cons]
    rw [List.map_cons]
    by_cases hc : r ∈ seen
    · rw [if_pos hc] at hB
      have hcont : seen.contains r = true := by simp [hc]
      cases hf : shared.find? (fun sh => sh.1 == r) with
      | none =>
        simp only [resolveLoop, hf]
        rw [ih acc seen, hB]
      | some sh =>
        by_cases hsec : (sectionSchema sh.2).isSome = true
        · simp only [resolveLoop, hf, if_pos hsec, hcont, if_true]
          rw [ih acc seen, hB]
        · simp only [resolveLoop, hf, if_neg hsec]
          rw [ih acc seen, hB]
    · rw [if_neg hc] at hB
      have hcont : seen.contains r = false := by simp [hc]
      cases hf : shared.find? (fun sh => sh.1 == r) with
      | none =>
        have hres : resolveOneShared shared r = none := by
          simp [resolveOneShared, hf]
        rw [hres] at hB
        simp only [resolveLoop, hf]
        rw [ih acc seen, hB]
      | some sh =>
        by_cases hsec : (sectionSchema sh.2).isSome = true
        · have hres : resolveOneShared shared r = some sh.2 := by
            simp [resolveOneShared, hf, hsec]
          rw [hres] at hB
          simp only [resolveLoop, hf, if_pos hsec, hcont, Bool.false_eq_true, if_false]
          rw [ih (acc ++ [sh.2]) (r :: seen), hB]
          simp [List.append_assoc]
        · have hres : resolveOneShared shared r = none := by
            simp [resolveOneShared, hf, hsec]
          rw [hres] at hB
          simp only [resolveLoop, hf, if_neg hsec]
          rw [ih acc seen, hB]

/-- Header reduction of `resolveSharedSections` when the flag is on, the pool
is non-empty, the page is an object and its `sharedSectionRefs` is an array. -/
theorem resolveSharedSections_loop_form (shared : List (String × Json))
    (kvs : List (String × Json)) (refs : List Json) (hpool : shared ≠ [])
    (hrefs : lookupKey kvs "sharedSectionRefs" = some (.arr refs)) :
    resolveSharedSections true shared (.obj kvs) =
      match resolveLoop shared refs
          (match lookupKey kvs "sections" with
           | some (.arr ss) => ss
           | _ => []) [] with
      | .error e => .error e
      | .ok ns => .ok (jsonSetProp (.obj kvs) "sections" (.arr ns)) := by
  have hlen : (shared.length == 0) = false := by
    cases shared with
    | nil => exact absurd rfl hpool
    | cons a l => rfl
  unfold resolveSharedSections
  simp only [jsTruthy, Bool.not_true, Bool.false_eq_true, if_false, hlen, Bool.or_self,
    Bool.or_false, readProp, objBindings, hrefs]

/-- C5: with the shared-sections flag on and a non-empty pool, resolving a
page whose ref list is a list of strings succeeds and returns the page with
its original sections unchanged (same order, nothing removed) and, appended
after them in ref-list order, the sections resolved from the pool for the
first occurrence of each ref id — later duplicates and dangling or invalid
refs are skipped without error. -/
theorem C5_resolveSharedSections_append (shared : List (String × Json))
    (kvs : List (String × Json)) (strs : List String) (secs : List Json)
    (hpool : shared ≠ [])
    (hrefs : lookupKey kvs "sharedSectionRefs" = some (.arr (strs.map .str)))
    (hsecs : lookupKey kvs "sections" = some (.arr secs)) :
    resolveSharedSections true shared (.obj kvs) =
      .ok (.obj (setKey kvs "sections"
        (.arr (secs ++ resolvedAppend shared strs)))) := by
  rw [resolveSharedSections_loop_form shared kvs (strs.map .str) hpool hrefs]
  rw [hsecs]
  rw [resolveLoop_eq_dedup shared strs secs []]
  have hfilter : (dedupFirst strs).filter (fun x => !(([] : List String).contains x)) =
      dedupFirst strs := by
    simp
  rw [hfilter]
  rfl

/-- Witness for C5: a ref list with a duplicate (`promo`, resolved once) and
a dangling id (`missing`, skipped); the resolved section is appended after
the page's original section. -/
theorem C5_witness :
    resolveSharedSections true [("promo", sectionJsonEx)]
      (.obj [("id", .str "p1"),
             ("sections", .arr [.str "placeholder"]),
             ("sharedSectionRefs", .arr [.str "promo", .str "promo", .str "missing"])]) =
      .ok (.obj [("id", .str "p1"),
                 ("sections", .arr ([.str "placeholder"] ++
                   resolvedAppend [("promo", sectionJsonEx)] ["promo", "promo", "missing"])),
                 ("sharedSectionRefs", .arr [.str "promo", .str "promo", .str "missing"])])
    ∧ resolvedAppend [("promo", sectionJsonEx)] ["promo", "promo", "missing"] =
        [sectionJsonEx] := by
  constructor
  · exact C5_resolveSharedSections_append [("promo", sectionJsonEx)] _
      ["promo", "promo", "missing"] [.str "placeholder"] (by simp) rfl rfl
  · simp [resolvedAppend, dedupFirst, resolveOneShared]
    rfl

/-- The resolution loop throws as soon as it reaches a non-string ref;
string refs before it are skipped or resolved but never abort. -/
theorem resolveLoop_nonstring_throws (shared : List (String × Json)) :
    ∀ (refs : List Json) (acc : List Json) (seen : List String),
      (∃ r ∈ refs, ∀ t : String, r ≠ .str t) →
      ∃ c, resolveLoop shared refs acc seen =
        .error (.validationError "INVALID_REF_ID" c) := by
  intro refs
  induction refs with
  | nil =>
    intro acc seen hbad
    obtain ⟨r, hr, _⟩ := hbad
    cases hr
  | cons r rest ih =>
    intro acc seen hbad
    obtain ⟨b, hb, hbs⟩ := hbad
    cases r with
    | str t =>
      have hb' : b ∈ rest := by
        rcases List.mem_cons.mp hb with rfl | hmem
        · exact absurd rfl (hbs t)
        · exact hmem
      cases hf : shared.find? (fun sh => sh.1 == t) with
      | none =>
        simp only [resolveLoop, hf]
        exact ih acc seen ⟨b, hb', hbs⟩
      | some sh =>
        by_cases hsec : (sectionSchema sh.2).isSome = true
        · by_cases hcont : seen.contains t = true
          · simp only [resolveLoop, hf, if_pos hsec, hcont, if_true]
            exact ih acc seen ⟨b, hb', hbs⟩
          · have hcf : seen.contains t = false := by
              cases hx : seen.contains t
              · rfl
              · exact absurd hx hcont
            simp only [resolveLoop, hf, if_pos hsec, hcf, Bool.false_eq_true, if_false]
            exact ih (acc ++ [sh.2]) (t :: seen) ⟨b, hb', hbs⟩
        · simp only [resolveLoop, hf, if_neg hsec]
          exact ih acc seen ⟨b, hb', hbs⟩
    | null =>
      exact ⟨"Invalid shared section reference: " ++ jsonDisplay .null, rfl⟩
    | bool v =>
      exact ⟨"Invalid shared section reference: " ++ jsonDisplay (.bool v), rfl⟩
    | num n =>
      exact ⟨"Invalid shared section reference: " ++ jsonDisplay (.num n), rfl⟩
    | arr xs =>
      exact ⟨"Invalid shared section reference: " ++ jsonDisplay (.arr xs), rfl⟩
    | obj okvs =>
      exact ⟨"Invalid shared section reference: " ++ jsonDisplay (.obj okvs), rfl⟩

/-- C10: with the shared-sections flag on and a non-empty pool, a page whose
`sharedSectionRefs` array contains a non-string entry makes
`resolveSharedSections` throw a `ValidationError` (the `INVALID_REF_ID`
throw at origincore 1063-1065) rather than skipping the entry. -/
theorem C10_nonstring_ref_throws (shared : List (String × Json))
    (kvs : List (String × Json)) (refs : List Json)
    (hpool : shared ≠ [])
    (hrefs : lookupKey kvs "sharedSectionRefs" = some (.arr refs))
    (hbad : ∃ r ∈ refs, ∀ t : String, r ≠ .str t) :
    ∃ c, resolveSharedSections true shared (.obj kvs) =
      .error (.validationError "INVALID_REF_ID" c) := by
  rw [resolveSharedSections_loop_form shared kvs refs hpool hrefs]
  obtain ⟨c, hc⟩ := resolveLoop_nonstring_throws shared refs
    (match lookupKey kvs "sections" with
     | some (.arr ss) => ss
     | _ => []) [] hbad
  exact ⟨c, by rw [hc]⟩

/-- Witness for C10: a numeric entry in the ref list throws. -/
theorem C10_witness :
    ∃ c, resolveSharedSections true [("promo", sectionJsonEx)]
      (.obj [("sections", .arr []),
             ("sharedSectionRefs", .arr [.str "promo", .num 3])]) =
      .error (.validationError "INVALID_REF_ID" c) :=
  C10_nonstring_ref_throws [("promo", sectionJsonEx)] _ [.str "promo", .num 3]
    (by simp) rfl
    ⟨.num 3, by simp, fun t h => Json.noConfusion h⟩

/- ========================================================================
   Claim C6: shared-section resolution in the heap model.
   ======================================================================== -/

/-- Generic step lemma: first-occurrence dedup filtered by the seen set, on a
cons, either drops the head (already seen), skips it (unresolvable) or emits
its resolution and adds it to the seen set. -/
theorem dedup_cons_step {β : Type} (res : String → Option β)
    (r : String) (rs : List String) (seen : List String) :
    (((dedupFirst (r :: rs)).filter (fun x => !(seen.contains x))).filterMap res) =
    (if r ∈ seen then
      ((dedupFirst rs).filter (fun x => !(seen.contains x))).filterMap res
     else
      match res r with
      | none => ((dedupFirst rs).filter (fun x => !(seen.contains x))).filterMap res
      | some v =>
        v :: ((dedupFirst rs).filter (fun x => !((r :: seen).contains x))).filterMap res) := by
  rw [dedupFirst]
  by_cases hc : r ∈ seen
  · rw [if_pos hc]
    rw [List.filter_cons_of_neg (by simp [hc])]
    rw [dedupFirst_filter_ne]
    rw [filter_filter_ne_of_false _ _ (by simp [hc])]
  · rw [if_neg hc]
    rw [List.filter_cons_of_pos (by simp [hc])]
    rw [List.filterMap_cons]
    cases hr : res r with
    | none =>
      rw [dedupFirst_filter_ne]
      rw [filter_swap]
      rw [filterMap_filter_ne_of_none _ _ hr]
    | some v =>
      rw [dedupFirst_filter_ne]
      rw [filter_not_contains_cons]

/-- The heap-model resolution loop equals first-occurrence deduplication
composed with per-id pool resolution. -/
theorem resolveLoopRef_eq_dedup (pool : List ASharedSection) (heap : THeap) :
    ∀ (strs : List String) (acc : List Nat) (seen : List String),
      resolveLoopRef pool heap strs acc seen =
        acc ++ ((dedupFirst strs).filter (fun x => !(seen.contains x))).filterMap
          (resolveOneSharedRef pool heap) := by
  intro strs
  induction strs with
  | nil => intro acc seen; simp [resolveLoopRef, dedupFirst]
  | cons r rs ih =>
    intro acc seen
    have hB := dedup_cons_step (resolveOneSharedRef pool heap) r rs seen
    by_cases hc : r ∈ seen
    · rw [if_pos hc] at hB
      have hcont : seen.contains r = true := by simp [hc]
      cases hf : pool.find? (fun sh => sh.id == r) with
      | none =>
        simp only [resolveLoopRef, hf]
        rw [ih acc seen, hB]
      | some sh =>
        by_cases hsec : isSectionAt heap sh.sectionAddr = true
        · simp only [resolveLoopRef, hf, if_pos hsec, hcont, if_true]
          rw [ih acc seen, hB]
        · simp only [resolveLoopRef, hf, if_neg hsec]
          rw [ih acc seen, hB]
    · rw [if_neg hc] at hB
      have hcont : seen.contains r = false := by simp [hc]
      cases hf : pool.find? (fun sh => sh.id == r) with
      | none =>
        have hres : resolveOneSharedRef pool heap r = none := by
          simp [resolveOneSharedRef, hf]
        rw [hres] at hB
        simp only [resolveLoopRef, hf]
        rw [ih acc seen, hB]
      | some sh =>
        by_cases hsec : isSectionAt heap sh.sectionAddr = true
        · have hres : resolveOneSharedRef pool heap r = some sh.sectionAddr := by
            simp [resolveOneSharedRef, hf, hsec]
          rw [hres] at hB
          simp only [resolveLoopRef, hf, if_pos hsec, hcont, Bool.false_eq_true, if_false]
          rw [ih (acc ++ [sh.sectionAddr]) (r :: seen), hB]
          simp [List.append_assoc]
        · have hres : resolveOneSharedRef pool heap r = none := by
            simp [resolveOneSharedRef, hf, hsec]
          rw [hres] at hB
          simp only [resolveLoopRef, hf, if_neg hsec]
          rw [ih acc seen, hB]

/-- C6 counterexample: resolving the example page appends the address held by
the pool entry itself (address 0) — `updatedSections.push(sharedSec.section)`
pushes the pool's section object by reference, performing no copy and no
allocation, so the appended section IS the pool entry's section object.  This
falsifies the claim that the appended section shares no mutable structure
with the pool entry. -/
theorem C6_counterexample :
    resolveSharedSectionsRef true poolC6 heapC6 pageC6 = ⟨"/p", [0], ["promo"]⟩
    ∧ ∃ sh ∈ poolC6, sh.sectionAddr = 0 :=
  ⟨rfl, ⟨⟨"promo", 0⟩, by decide, rfl⟩⟩

/-- C6 amended: `resolveSharedSections` is a pure transform — it returns a
new page value whose sections are the input's sections (unchanged, in order)
followed by the resolved shared sections, and it neither mutates the input
page nor touches the heap (the model reads the heap and returns no modified
heap) — but each appended section is the pool entry's own section object
(its address), appended by reference rather than as a copy. -/
theorem C6_amended_resolve_appends_by_reference (pool : List ASharedSection)
    (heap : THeap) (page : APage) (hpool : pool ≠ []) :
    resolveSharedSectionsRef true pool heap page =
      { page with
        sections := page.sections ++ resolvedAppendRef pool heap page.sharedSectionRefs }
    ∧ ∀ a ∈ resolvedAppendRef pool heap page.sharedSectionRefs,
        ∃ sh ∈ pool, sh.sectionAddr = a := by
  constructor
  · have hlen : (pool.length == 0) = false := by
      cases pool with
      | nil => exact absurd rfl hpool
      | cons a l => rfl
    unfold resolveSharedSectionsRef
    simp only [Bool.not_true, Bool.false_or, hlen, Bool.false_eq_true, if_false]
    rw [resolveLoopRef_eq_dedup pool heap page.sharedSectionRefs page.sections []]
    have hfilter : (dedupFirst page.sharedSectionRefs).filter
        (fun x => !(([] : List String).contains x)) = dedupFirst page.sharedSectionRefs := by
      simp
    rw [hfilter]
    rfl
  · intro a ha
    obtain ⟨r, hr, hres⟩ := List.mem_filterMap.mp ha
    unfold resolveOneSharedRef at hres
    cases hf : pool.find? (fun sh => sh.id == r) with
    | none => rw [hf] at hres; cases hres
    | some sh =>
      rw [hf] at hres
      simp only at hres
      by_cases hsec : isSectionAt heap sh.sectionAddr = true
      · rw [if_pos hsec] at hres
        exact ⟨sh, List.mem_of_find?_eq_some hf, (Option.some.inj hres)⟩
      · rw [if_neg hsec] at hres; cases hres

/-- Witness for the amended C6 at the concrete pool/heap/page. -/
theorem C6_amended_witness :
    resolveSharedSectionsRef true poolC6 heapC6 pageC6 =
      { pageC6 with
        sections := pageC6.sections ++ resolvedAppendRef poolC6 heapC6 pageC6.sharedSectionRefs }
    ∧ ∀ a ∈ resolvedAppendRef poolC6 heapC6 pageC6.sharedSectionRefs,
        ∃ sh ∈ poolC6, sh.sectionAddr = a :=
  C6_amended_resolve_appends_by_reference poolC6 heapC6 pageC6 (by simp [poolC6])

/- ========================================================================
   Claim C2: template instantiation copy semantics.
   ======================================================================== -/

theorem heapLookup_alloc_ne {h : THeap} {v : Json} {a : Nat} (hne : a ≠ h.next) :
    heapLookup (heapAlloc h v).2 a = heapLookup h a := by
  unfold heapLookup heapAlloc
  simp only [List.find?_append]
  cases hf : h.mem.find? (fun p => p.1 == a) with
  | some p => simp
  | none =>
    simp only [Option.none_or]
    have : ((h.next, v).1 == a) = false := by
      simp [Ne.symm hne]
    simp [List.find?, this]

/-- C2 counterexample: instantiating a registered template that declares no
variables (and no AI prompt) returns `{ ...template.section }` — a shallow
copy whose `fields` record is the very record (address 0) stored in the
registry's template, and the heap is untouched.  This falsifies the claim
that every instantiation returns a deep copy sharing no mutable
substructure with the stored template. -/
theorem C2_counterexample :
    templateUtils.instantiate envC2 regC2 heapC2 "t1" [] =
      .ok (⟨"s1", "hero", 0⟩, heapC2)
    ∧ tmplC2.tsection.fieldsAddr = 0 :=
  ⟨rfl, rfl⟩

/-- C2 amended: instantiation never mutates the registry entry or the
template's stored fields record.  When the template declares at least one
variable (no `aiPrompt`), the returned section is rebuilt from the
serialized form with a freshly allocated fields record sharing nothing
with the template; when it declares no variables and no `aiPrompt`, the
returned section is the shallow copy `{ ...template.section }`,
sharing the template's mutable fields record; and when AI augmentation
runs (no variables, truthy `aiPrompt`, AI content enabled, the `text`
section type registered), `{ ...section, ...aiContent[0] }` replaces
the section wholesale with a freshly generated one whose fields record is
freshly allocated and shares nothing with the template. -/
theorem C2_amended_instantiate_copy_semantics (env : InstEnv)
    (reg : List (String × TemplateH)) (h : THeap) (id : String)
    (vars : List (String × String)) (tpl : TemplateH)
    (hreg : lookupReg reg id = some tpl)
    (haddr : tpl.tsection.fieldsAddr < h.next) :
    (tpl.aiPrompt = none → tpl.varsDecl ≠ [] →
      templateUtils.instantiate env reg h id vars =
        .ok (⟨substStr vars tpl.tsection.sid, substStr vars tpl.tsection.stype, h.next⟩,
             (heapAlloc h (substJson vars
               ((heapLookup h tpl.tsection.fieldsAddr).getD .null))).2)
      ∧ h.next ≠ tpl.tsection.fieldsAddr
      ∧ heapLookup (heapAlloc h (substJson vars
            ((heapLookup h tpl.tsection.fieldsAddr).getD .null))).2
          tpl.tsection.fieldsAddr = heapLookup h tpl.tsection.fieldsAddr)
    ∧ (tpl.aiPrompt = none → tpl.varsDecl = [] →
      templateUtils.instantiate env reg h id vars = .ok (tpl.tsection, h))
    ∧ (tpl.varsDecl = [] → truthyStr tpl.aiPrompt = true →
      env.aiContentEnabled = true → env.sectionTypes.contains "text" = true →
      templateUtils.instantiate env reg h id vars =
        .ok (⟨uuidString h.next, "text", h.next⟩, (heapAlloc h (aiFieldsJson vars)).2)
      ∧ h.next ≠ tpl.tsection.fieldsAddr
      ∧ heapLookup (heapAlloc h (aiFieldsJson vars)).2 tpl.tsection.fieldsAddr
          = heapLookup h tpl.tsection.fieldsAddr) := by
  have hget : templateUtils.get reg id = .ok tpl := by
    unfold templateUtils.get
    rw [hreg]
  have hne : h.next ≠ tpl.tsection.fieldsAddr := by omega
  refine ⟨?_, ?_, ?_⟩
  · intro hprompt hvars
    have hlen : tpl.varsDecl.length > 0 := by
      cases hd : tpl.varsDecl with
      | nil => exact absurd hd hvars
      | cons a l => simp [hd]
    refine ⟨?_, hne, heapLookup_alloc_ne (Ne.symm hne)⟩
    unfold templateUtils.instantiate
    rw [hget]
    simp only [if_pos hlen, hprompt]
    rfl
  · intro hprompt hvars
    have hlen : ¬ (tpl.varsDecl.length > 0) := by
      rw [hvars]
      simp
    unfold templateUtils.instantiate
    rw [hget]
    simp only [if_neg hlen, hprompt]
    rfl
  · intro hvars hpt henv htext
    have hlen : ¬ (tpl.varsDecl.length > 0) := by
      rw [hvars]
      simp
    refine ⟨?_, hne, heapLookup_alloc_ne (Ne.symm hne)⟩
    unfold templateUtils.instantiate
    rw [hget]
    simp only [if_neg hlen, hpt]
    unfold generateAIContentSectionsRef
    simp only [hpt, henv, htext]
    rfl

/-- Witness for the amended C2, all three arms at concrete values: a
one-variable template yields a fresh fields record at the next heap
address; a no-variables prompt-free template returns its stored section
shallowly; a no-variables template with a truthy prompt (AI on, `text`
registered) returns a freshly generated section, the stored record
untouched in every case. -/
theorem C2_amended_witness :
    (templateUtils.instantiate envC2 regC2v heapC2 "t2" [("city", "Sydney")] =
      .ok (⟨substStr [("city", "Sydney")] "s2", substStr [("city", "Sydney")] "text", 1⟩,
           (heapAlloc heapC2 (substJson [("city", "Sydney")]
             ((heapLookup heapC2 0).getD .null))).2)
     ∧ (1 : Nat) ≠ 0
     ∧ heapLookup (heapAlloc heapC2 (substJson [("city", "Sydney")]
           ((heapLookup heapC2 0).getD .null))).2 0 = heapLookup heapC2 0)
    ∧ templateUtils.instantiate envC2 regC2 heapC2 "t1" [] = .ok (tmplC2.tsection, heapC2)
    ∧ (templateUtils.instantiate envC2 regC2p heapC2 "t3" [] =
        .ok (⟨uuidString heapC2.next, "text", heapC2.next⟩,
             (heapAlloc heapC2 (aiFieldsJson [])).2)
       ∧ heapC2.next ≠ tmplC2p.tsection.fieldsAddr
       ∧ heapLookup (heapAlloc heapC2 (aiFieldsJson [])).2 tmplC2p.tsection.fieldsAddr
           = heapLookup heapC2 tmplC2p.tsection.fieldsAddr) :=
  ⟨(C2_amended_instantiate_copy_semantics envC2 regC2v heapC2 "t2" [("city", "Sydney")]
      tmplC2v rfl (by decide)).1 rfl (by simp [tmplC2v]),
   (C2_amended_instantiate_copy_semantics envC2 regC2 heapC2 "t1" [] tmplC2 rfl
      (by decide)).2.1 rfl rfl,
   (C2_amended_instantiate_copy_semantics envC2 regC2p heapC2 "t3" [] tmplC2p rfl
      (by decide)).2.2 rfl rfl rfl rfl⟩

/- ========================================================================
   Claims C7 and C8: registry append-once semantics and the app-config
   cross-field refinement.
   ======================================================================== -/

/-- C7: all three registries enforce append-once-per-key — a second
`register` under an existing key fails (section-type and page registries
with a plain `Error`, the template registry with a `ValidationError` coded
`TEMPLATE_EXISTS`).  In the state-passing model an error produces no new
registry value, so the caller's registry — including the existing entry —
is unchanged. -/
theorem C7_registries_append_once :
    (∀ (reg : List (String × SectionRegistryItem)) (type : String)
       (item existing : SectionRegistryItem),
       lookupReg reg type = some existing →
       sectionRegistryUtils.register reg type item =
         .error (.error ("Section type " ++ type ++ " already registered")))
    ∧ (∀ (pages : List (String × PageT)) (page existing : PageT),
        lookupReg pages page.slug = some existing →
        registerPage pages page =
          .error (.error ("Page slug " ++ page.slug ++ " already registered")))
    ∧ (∀ (reg : List (String × TemplateH)) (template existing : TemplateH),
        lookupReg reg template.tid = some existing →
        templateUtils.register reg template =
          .error (.validationError "Template already exists" "TEMPLATE_EXISTS")) := by
  refine ⟨?_, ?_, ?_⟩
  · intro reg type item existing hl
    unfold sectionRegistryUtils.register
    rw [hl]
    rfl
  · intro pages page existing hl
    unfold registerPage
    rw [hl]
    rfl
  · intro reg template existing hl
    unfold templateUtils.register
    rw [hl]
    rfl

/-- Witness for C7 at concrete one-entry registries. -/
theorem C7_witness :
    sectionRegistryUtils.register [("hero", ⟨"Hero", "star", "Hero section"⟩)]
        "hero" ⟨"Hero2", "star2", "Another"⟩ =
      .error (.error "Section type hero already registered")
    ∧ registerPage [("/home", ⟨"uuid-0", "home", "/home", [], [], [], 1, "t", "system"⟩)]
        ⟨"uuid-1", "home", "/home", [], [], [], 1, "t", "system"⟩ =
      .error (.error "Page slug /home already registered")
    ∧ templateUtils.register [("t1", tmplC2)] tmplC2 =
      .error (.validationError "Template already exists" "TEMPLATE_EXISTS") := by
  refine ⟨?_, ?_, ?_⟩
  · have := C7_registries_append_once.1 [("hero", ⟨"Hero", "star", "Hero section"⟩)]
      "hero" ⟨"Hero2", "star2", "Another"⟩ ⟨"Hero", "star", "Hero section"⟩ rfl
    simpa using this
  · have := C7_registries_append_once.2.1
      [("/home", ⟨"uuid-0", "home", "/home", [], [], [], 1, "t", "system"⟩)]
      ⟨"uuid-1", "home", "/home", [], [], [], 1, "t", "system"⟩
      ⟨"uuid-0", "home", "/home", [], [], [], 1, "t", "system"⟩ rfl
    simpa using this
  · exact C7_registries_append_once.2.2 [("t1", tmplC2)] tmplC2 tmplC2 rfl

/-- C8: safe-parsing against `appConfigSchema` enforces the cross-field
refinement on the parsed output: with `advancedConfig` present (truthy),
parsing succeeds exactly when `enableAdvancedSEO` or `enableAIContent` is
true in the parsed feature flags, and fails when both are false. -/
theorem C8_appConfig_refinement (j out : Json)
    (hbase : stripObj appConfigSpecs j = some out)
    (hadv : propTruthy out "advancedConfig" = true) :
    ((getFFlag out "enableAdvancedSEO" = true ∨ getFFlag out "enableAIContent" = true) →
       appConfigSchema j = some out)
    ∧ (getFFlag out "enableAdvancedSEO" = false ∧ getFFlag out "enableAIContent" = false →
       appConfigSchema j = none) := by
  constructor
  · intro hor
    simp only [appConfigSchema, hbase]
    have hok : appConfigRefineOK out = true := by
      unfold appConfigRefineOK
      rcases hor with hA | hB
      · simp [hA]
      · simp [hB]
    rw [if_pos hok]
  · intro ⟨hA, hB⟩
    simp only [appConfigSchema, hbase]
    have hok : appConfigRefineOK out = false := by
      unfold appConfigRefineOK
      simp [hA, hB, hadv]
    rw [if_neg (by simp [hok])]

/-- Witness for C8: a config with `enableAdvancedSEO: true` and a present
(empty-object, hence truthy) `advancedConfig` parses successfully. -/
theorem C8_witness : appConfigSchema cfgJsonC8 = some cfgOutC8 :=
  (C8_appConfig_refinement cfgJsonC8 cfgOutC8 (by rfl) (by rfl)).1 (Or.inl (by rfl))

/- ========================================================================
   Claim C3: idempotence of the programmatic-SEO generator.
   ======================================================================== -/

theorem lookupReg_none_iff {α : Type} {l : List (String × α)} {k : String} :
    lookupReg l k = none ↔ k ∉ l.map Prod.fst := by
  unfold lookupReg
  cases hf : l.find? (fun p => p.1 == k) with
  | some p =>
    have hp := List.find?_some hf
    have hpm := List.mem_of_find?_eq_some hf
    simp only [beq_iff_eq] at hp
    constructor
    · intro h; cases h
    · intro hmem
      exact absurd (List.mem_map.mpr ⟨p, hpm, hp⟩) hmem
  | none =>
    constructor
    · intro _ hmem
      rcases List.mem_map.mp hmem with ⟨p, hpmem, hpk⟩
      have hne := List.find?_eq_none.mp hf p hpmem
      simp [hpk] at hne
    · intro _; rfl

theorem lookupReg_append_left {α : Type} {l l2 : List (String × α)} {k : String} {p : α}
    (h : lookupReg l k = some p) : lookupReg (l ++ l2) k = some p := by
  unfold lookupReg at h ⊢
  rw [List.find?_append]
  cases hf : l.find? (fun q => q.1 == k) with
  | some q => rw [hf] at h; simpa [h] using h
  | none => rw [hf] at h; cases h

theorem lookupReg_append_self {α : Type} {l : List (String × α)} {k : String} {v : α}
    (h : lookupReg l k = none) : lookupReg (l ++ [(k, v)]) k = some v := by
  unfold lookupReg at h ⊢
  rw [List.find?_append]
  cases hf : l.find? (fun q => q.1 == k) with
  | some q => rw [hf] at h; cases h
  | none =>
    simp [List.find?]

theorem nodup_append_key {α : Type} {l : List (String × α)} {k : String} {v : α}
    (hnd : (l.map Prod.fst).Nodup) (h : lookupReg l k = none) :
    ((l ++ [(k, v)]).map Prod.fst).Nodup := by
  rw [List.map_append]
  rw [List.nodup_append]
  refine ⟨hnd, by simp, ?_⟩
  intro x hx
  simp only [List.map_cons, List.map_nil, List.mem_singleton]
  intro hk
  subst hk
  exact absurd hx (lookupReg_none_iff.mp h)

theorem lookupReg_cons_ne {α : Type} {q : String × α} {rest : List (String × α)}
    {k : String} (h : ¬ q.1 = k) : lookupReg (q :: rest) k = lookupReg rest k := by
  unfold lookupReg
  have hq : (q.1 == k) = false := by simp [h]
  simp only [List.find?, hq]

theorem countSlug_zero {l : List (String × PageT)} {k : String}
    (h : k ∉ l.map Prod.fst) : countSlug l k = 0 := by
  unfold countSlug
  induction l with
  | nil => rfl
  | cons q rest ih =>
    simp only [List.map_cons, List.mem_cons] at h
    push_neg at h
    rw [List.filter_cons_of_neg (by simp [Ne.symm h.1])]
    exact ih h.2

theorem countSlug_one {l : List (String × PageT)} {k : String} {p : PageT}
    (hnd : (l.map Prod.fst).Nodup) (h : lookupReg l k = some p) :
    countSlug l k = 1 := by
  induction l with
  | nil => cases h
  | cons q rest ih =>
    rw [List.map_cons, List.nodup_cons] at hnd
    by_cases hk : q.1 = k
    · unfold countSlug
      rw [List.filter_cons_of_pos (by simp [hk])]
      have : countSlug rest k = 0 := countSlug_zero (hk ▸ hnd.1)
      unfold countSlug at this
      simp [this]
    · unfold countSlug
      rw [List.filter_cons_of_neg (by simp [hk])]
      have hrest : lookupReg rest k = some p := by
        rw [lookupReg_cons_ne hk] at h
        exact h
      exact ih hnd.2 hrest

theorem generateAI_ok_pages {env : GenEnv} {st : SEOState} {instr : Option String}
    {vars : List (String × String)} {out : List SectionT × SEOState}
    (h : generateAIContentSections env st instr vars = .ok out) :
    out.2.pages = st.pages := by
  unfold generateAIContentSections at h
  by_cases hc : (!truthyStr instr || !((env.aiContent.map (fun c => c.enabled)).getD false)) = true
  · rw [if_pos hc] at h
    cases h
    rfl
  · rw [if_neg hc] at h
    simp only [] at h
    split at h
    next heq => cases h
    next sec st1 heq =>
      cases h
      have : st1.pages = st.pages := by
        unfold pageBuilderUtils.createSection at heq
        by_cases hr : (!(env.sectionTypes.contains "text")) = true
        · rw [if_pos hr] at heq; cases heq
        · rw [if_neg hr] at heq
          cases heq
          rfl
      simpa using this

theorem createPage_ok_inv {env : GenEnv} {st : SEOState} {pt slug : String}
    {out : PageT × SEOState}
    (h : pageBuilderUtils.createPage env st pt slug = .ok out) :
    out.1.slug = slug ∧ out.1.sections = [] ∧ out.2.pages = st.pages := by
  unfold pageBuilderUtils.createPage at h
  by_cases h1 : (!(pageTypeEnum.contains pt)) = true
  · rw [if_pos h1] at h; cases h
  · rw [if_neg h1] at h
    by_cases h2 : (slug == "" || trimChars slug.data == []) = true
    · rw [if_pos h2] at h; cases h
    · rw [if_neg h2] at h
      cases h
      exact ⟨rfl, rfl, rfl⟩

theorem registerPage_ok_inv {pages : List (String × PageT)} {page : PageT}
    {pages' : List (String × PageT)}
    (h : registerPage pages page = .ok pages') :
    pages' = pages ++ [(page.slug, page)] ∧ lookupReg pages page.slug = none := by
  unfold registerPage at h
  cases hl : lookupReg pages page.slug with
  | some p => rw [hl] at h; simp at h
  | none =>
    rw [hl] at h
    simp only [Option.isSome_none, Bool.false_eq_true, if_false, Except.ok.injEq] at h
    exact ⟨h.symm, rfl⟩

/-- Inversion for a successful `processPair`: either the slug was already
registered and the state is unchanged, or it was fresh and exactly one page
is appended under that slug. -/
theorem processPair_ok_inv {env : GenEnv} {rule : RouteRuleT} {city service : String}
    {st st' : SEOState}
    (h : processPair env rule city service st = .ok st') :
    ((lookupReg st.pages (slugFor city service)).isSome = true ∧ st' = st)
    ∨ (lookupReg st.pages (slugFor city service) = none
       ∧ ∃ page : PageT, st'.pages = st.pages ++ [(slugFor city service, page)]) := by
  unfold processPair at h
  cases hg : getPageBySlugIn st.pages (slugFor city service) with
  | some p =>
    simp only [hg] at h
    cases h
    exact Or.inl ⟨by unfold getPageBySlugIn at hg; simp [hg], rfl⟩
  | none =>
    simp only [hg] at h
    cases hai : (if env.enableAIContent
          && ((env.aiContent.map (fun c => c.enabled)).getD false)
          && truthyStr rule.aiInstructions
        then generateAIContentSections env st rule.aiInstructions
              [("city", city), ("service", service)]
        else .ok ([], st)) with
    | error e => rw [hai] at h; cases h
    | ok gpair =>
      rw [hai] at h
      have hst1 : gpair.2.pages = st.pages := by
        by_cases hc : (env.enableAIContent
            && ((env.aiContent.map (fun c => c.enabled)).getD false)
            && truthyStr rule.aiInstructions) = true
        · rw [if_pos hc] at hai
          exact generateAI_ok_pages hai
        · rw [if_neg hc] at hai
          cases hai
          rfl
      obtain ⟨gen, st1⟩ := gpair
      simp only [] at h
      cases hcp : pageBuilderUtils.createPage env st1 "city" (slugFor city service) with
      | error e => rw [hcp] at h; cases h
      | ok ppair =>
        rw [hcp] at h
        obtain ⟨page0, st2⟩ := ppair
        obtain ⟨hslug, hsecs, hpages2⟩ := createPage_ok_inv hcp
        simp only [] at h
        cases hreg : registerPage st2.pages
            { page0 with sections := page0.sections ++ gen } with
        | error e => rw [hreg] at h; cases h
        | ok pages' =>
          rw [hreg] at h
          cases h
          obtain ⟨hpp, hnone⟩ := registerPage_ok_inv hreg
          simp only at hpages2 hslug hsecs
          have hkey : ({ page0 with sections := page0.sections ++ gen } : PageT).slug =
              slugFor city service := hslug
          refine Or.inr ⟨?_, ⟨{ page0 with sections := page0.sections ++ gen }, ?_⟩⟩
          · have : lookupReg st2.pages (slugFor city service) = none := hkey ▸ hnone
            rw [hpages2, hst1] at this
            unfold getPageBySlugIn at hg
            exact this
          · simp only at hst1
            rw [hpp, hpages2, hst1, hslug]

/-- A `processPair` whose slug is already present returns the state
unchanged. -/
theorem processPair_present_id {env : GenEnv} {rule : RouteRuleT} {city service : String}
    {st : SEOState}
    (h : (lookupReg st.pages (slugFor city service)).isSome = true) :
    processPair env rule city service st = .ok st := by
  unfold processPair
  cases hg : getPageBySlugIn st.pages (slugFor city service) with
  | some p => simp only [hg]
  | none =>
    unfold getPageBySlugIn at hg
    rw [hg] at h
    cases h

/- Fold combinators for state invariants. -/

theorem foldExcept_invariant {α : Type} (f : α → SEOState → Except CoreErr SEOState)
    (I : SEOState → Prop)
    (hf : ∀ x s s', f x s = .ok s' → I s → I s') :
    ∀ {l : List α} {st st' : SEOState},
      foldExcept f l st = .ok st' → I st → I st' := by
  intro l
  induction l with
  | nil =>
    intro st st' h h0
    cases h
    exact h0
  | cons x xs ih =>
    intro st st' h h0
    unfold foldExcept at h
    cases hx : f x st with
    | error e => rw [hx] at h; cases h
    | ok s1 =>
      rw [hx] at h
      exact ih h (hf x st s1 hx h0)

theorem foldExcept_ok_of_id {α : Type} (f : α → SEOState → Except CoreErr SEOState)
    {l : List α} {st : SEOState}
    (h : ∀ x ∈ l, f x st = .ok st) : foldExcept f l st = .ok st := by
  induction l with
  | nil => rfl
  | cons x xs ih =>
    unfold foldExcept
    rw [h x (List.mem_cons_self _ _)]
    exact ih (fun y hy => h y (List.mem_cons_of_mem _ hy))

theorem foldExcept_establishes {α : Type} (f : α → SEOState → Except CoreErr SEOState)
    (Q : α → SEOState → Prop)
    (hQpres : ∀ y x s s', f x s = .ok s' → Q y s → Q y s')
    (hest : ∀ x s s', f x s = .ok s' → Q x s') :
    ∀ {l : List α} {st st' : SEOState},
      foldExcept f l st = .ok st' → ∀ x ∈ l, Q x st' := by
  intro l
  induction l with
  | nil =>
    intro st st' h x hx
    cases hx
  | cons y ys ih =>
    intro st st' h x hx
    unfold foldExcept at h
    cases hy : f y st with
    | error e => rw [hy] at h; cases h
    | ok s1 =>
      rw [hy] at h
      rcases List.mem_cons.mp hx with rfl | hx'
      · exact foldExcept_invariant f (Q x) (fun z s s' hz => hQpres x z s s' hz) h
          (hest x st s1 hy)
      · exact ih h x hx'

/-- The lookup-preservation invariant for `processPair`. -/
theorem processPair_pres_lookup (env : GenEnv) (rule : RouteRuleT)
    (city service : String) (s s' : SEOState)
    (h : processPair env rule city service s = .ok s')
    {k : String} {p : PageT} (hl : lookupReg s.pages k = some p) :
    lookupReg s'.pages k = some p := by
  rcases processPair_ok_inv h with ⟨_, rfl⟩ | ⟨_, ⟨page, hpp⟩⟩
  · exact hl
  · rw [hpp]
    exact lookupReg_append_left hl

theorem processPair_pres_nodup (env : GenEnv) (rule : RouteRuleT)
    (city service : String) (s s' : SEOState)
    (h : processPair env rule city service s = .ok s')
    (hnd : (s.pages.map Prod.fst).Nodup) : (s'.pages.map Prod.fst).Nodup := by
  rcases processPair_ok_inv h with ⟨_, rfl⟩ | ⟨hnone, ⟨page, hpp⟩⟩
  · exact hnd
  · rw [hpp]
    exact nodup_append_key hnd hnone

theorem processPair_pres_isSome (env : GenEnv) (rule : RouteRuleT)
    (city service : String) (s s' : SEOState)
    (h : processPair env rule city service s = .ok s')
    {k : String} (hk : (lookupReg s.pages k).isSome = true) :
    (lookupReg s'.pages k).isSome = true := by
  obtain ⟨p, hp⟩ := Option.isSome_iff_exists.mp hk
  rw [processPair_pres_lookup env rule city service s s' h hp]
  rfl

theorem processPair_est_self (env : GenEnv) (rule : RouteRuleT)
    (city service : String) (s s' : SEOState)
    (h : processPair env rule city service s = .ok s') :
    (lookupReg s'.pages (slugFor city service)).isSome = true := by
  rcases processPair_ok_inv h with ⟨hp, rfl⟩ | ⟨hnone, ⟨page, hpp⟩⟩
  · exact hp
  · rw [hpp, lookupReg_append_self hnone]
    rfl

theorem processRule_invariant (env : GenEnv) (rule : RouteRuleT) (I : SEOState → Prop)
    (hI : ∀ city service s s', processPair env rule city service s = .ok s' → I s → I s')
    {s s' : SEOState} (h : processRule env rule s = .ok s') (h0 : I s) : I s' := by
  unfold processRule at h
  by_cases hc : (rule.rtype == "dynamic" && rule.generateFrom == some "locations") = true
  · rw [if_pos hc] at h
    exact foldExcept_invariant _ I
      (fun city sc sc' hcity hIc =>
        foldExcept_invariant _ I
          (fun service sv sv' hsv hIv => hI city service sv sv' hsv hIv) hcity hIc)
      h h0
  · rw [if_neg hc] at h
    cases h
    exact h0

theorem processRule_present (env : GenEnv) (rule : RouteRuleT) {s s' : SEOState}
    (h : processRule env rule s = .ok s')
    (hc : (rule.rtype == "dynamic" && rule.generateFrom == some "locations") = true) :
    ∀ c ∈ cities, ∀ v ∈ services, (lookupReg s'.pages (slugFor c v)).isSome = true := by
  unfold processRule at h
  rw [if_pos hc] at h
  have hest : ∀ x s0 s1,
      foldExcept (fun service st => processPair env rule x service st) services s0 = .ok s1 →
      ∀ v ∈ services, (lookupReg s1.pages (slugFor x v)).isSome = true := by
    intro x s0 s1 hx
    exact foldExcept_establishes
      (fun service st => processPair env rule x service st)
      (fun service st => (lookupReg st.pages (slugFor x service)).isSome = true)
      (fun y z sa sb hz hq => processPair_pres_isSome env rule x z sa sb hz hq)
      (fun z sa sb hz => processPair_est_self env rule x z sa sb hz)
      hx
  have hQpres : ∀ y x s0 s1,
      foldExcept (fun service st => processPair env rule x service st) services s0 = .ok s1 →
      (∀ v ∈ services, (lookupReg s0.pages (slugFor y v)).isSome = true) →
      (∀ v ∈ services, (lookupReg s1.pages (slugFor y v)).isSome = true) := by
    intro y x s0 s1 hx hq v hv
    exact foldExcept_invariant
      (fun service st => processPair env rule x service st)
      (fun st => (lookupReg st.pages (slugFor y v)).isSome = true)
      (fun z sa sb hz hl => processPair_pres_isSome env rule x z sa sb hz hl)
      hx (hq v hv)
  exact foldExcept_establishes
    (fun city st => foldExcept (fun service st => processPair env rule city service st) services st)
    (fun city st => ∀ v ∈ services, (lookupReg st.pages (slugFor city v)).isSome = true)
    hQpres
    (fun x sa sb hx => hest x sa sb hx)
    h

theorem processRule_id_of_present (env : GenEnv) (rule : RouteRuleT) {s : SEOState}
    (hpres : (rule.rtype == "dynamic" && rule.generateFrom == some "locations") = true →
      ∀ c ∈ cities, ∀ v ∈ services, (lookupReg s.pages (slugFor c v)).isSome = true) :
    processRule env rule s = .ok s := by
  unfold processRule
  by_cases hc : (rule.rtype == "dynamic" && rule.generateFrom == some "locations") = true
  · rw [if_pos hc]
    apply foldExcept_ok_of_id
    intro c hcm
    apply foldExcept_ok_of_id
    intro v hvm
    exact processPair_present_id (hpres hc c hcm v hvm)
  · rw [if_neg hc]

/-- C3: the programmatic-SEO generator is idempotent at the page-registry
level.  If a run succeeds (from a registry with distinct slugs), running it
again returns the state unchanged and throws no error — every slug already
present is simply skipped — the registry's slugs stay distinct, and every
generated slug of every dynamic locations rule (flags on) is registered
exactly once. -/
theorem C3_applyProgrammaticSEO_idempotent (env : GenEnv) (st0 st1 : SEOState)
    (hrun : applyProgrammaticSEO env st0 = .ok st1)
    (hnd : (st0.pages.map Prod.fst).Nodup) :
    applyProgrammaticSEO env st1 = .ok st1
    ∧ (st1.pages.map Prod.fst).Nodup
    ∧ (∀ cfg, env.progSEO = some cfg → env.enableProgrammaticSEO = true → cfg.enabled = true →
        ∀ rule ∈ cfg.routeRules, rule.rtype = "dynamic" → rule.generateFrom = some "locations" →
        ∀ c ∈ cities, ∀ v ∈ services,
          countSlug st1.pages (slugFor c v) = 1) := by
  unfold applyProgrammaticSEO at hrun ⊢
  by_cases hguard : (!env.enableProgrammaticSEO
      || !((env.progSEO.map (fun c => c.enabled)).getD false)) = true
  · rw [if_pos hguard] at hrun ⊢
    cases hrun
    refine ⟨rfl, hnd, ?_⟩
    intro cfg hcfg hflag hen rule hrule hdyn hloc c hcm v hvm
    exfalso
    rw [hcfg] at hguard
    simp [hflag, hen] at hguard
  · rw [if_neg hguard] at hrun ⊢
    have hpresent : ∀ rule ∈ (extractProgrammaticSEODetails env).routeRules,
        (rule.rtype == "dynamic" && rule.generateFrom == some "locations") = true →
        ∀ c ∈ cities, ∀ v ∈ services,
          (lookupReg st1.pages (slugFor c v)).isSome = true := by
      intro rule hrulemem
      exact foldExcept_establishes (processRule env)
        (fun rule st =>
          (rule.rtype == "dynamic" && rule.generateFrom == some "locations") = true →
          ∀ c ∈ cities, ∀ v ∈ services, (lookupReg st.pages (slugFor c v)).isSome = true)
        (fun y x sa sb hx hq hdl c hcm v hvm =>
          processRule_invariant env x
            (fun st => (lookupReg st.pages (slugFor c v)).isSome = true)
            (fun city service s s' hps hl =>
              processPair_pres_isSome env x city service s s' hps hl)
            hx (hq hdl c hcm v hvm))
        (fun x sa sb hx hdl => processRule_present env x hx hdl)
        hrun rule hrulemem
    have hnd1 : (st1.pages.map Prod.fst).Nodup := by
      exact foldExcept_invariant (processRule env)
        (fun st => (st.pages.map Prod.fst).Nodup)
        (fun rule s s' hr hn =>
          processRule_invariant env rule (fun st => (st.pages.map Prod.fst).Nodup)
            (fun city service sa sb hps hn' =>
              processPair_pres_nodup env rule city service sa sb hps hn')
            hr hn)
        hrun hnd
    refine ⟨?_, hnd1, ?_⟩
    · apply foldExcept_ok_of_id
      intro rule hrulemem
      apply processRule_id_of_present
      intro hdl c hcm v hvm
      exact hpresent rule hrulemem hdl c hcm v hvm
    · intro cfg hcfg hflag hen rule hrule hdyn hloc c hcm v hvm
      have hrules : (extractProgrammaticSEODetails env).routeRules = cfg.routeRules := by
        unfold extractProgrammaticSEODetails
        rw [hcfg]
        rfl
      have hdl : (rule.rtype == "dynamic" && rule.generateFrom == some "locations") = true := by
        simp [hdyn, hloc]
      have hsome := hpresent rule (hrules ▸ hrule) hdl c hcm v hvm
      obtain ⟨p, hp⟩ := Option.isSome_iff_exists.mp hsome
      exact countSlug_one hnd1 hp

/-- Witness for C3: with the shipped-config-like environment, the first run
registers the six city/service pages; the second run is the identity, slugs
stay distinct, and `/sydney/house-cleaning` is registered exactly once. -/
theorem C3_witness :
    applyProgrammaticSEO envC3 st1C3 = .ok st1C3
    ∧ (st1C3.pages.map Prod.fst).Nodup
    ∧ countSlug st1C3.pages (slugFor "sydney" "house-cleaning") = 1 := by
  have h := C3_applyProgrammaticSEO_idempotent envC3 st0Gen st1C3 (by rfl) (by simp [st0Gen])
  refine ⟨h.1, h.2.1, ?_⟩
  exact h.2.2 cfgC3 rfl rfl rfl ruleC3 (List.mem_cons_self _ _) rfl rfl
    "sydney" (by simp [cities]) "house-cleaning" (by simp [services])

/- Helper lemmas for claim C1: the slug built by the generator is never
empty or all-whitespace, so `createPage` always succeeds on it. -/

theorem slugFor_data (c s : String) :
    (slugFor c s).data = '/' :: (c.data ++ '/' :: s.data) := by
  simp [slugFor, String.data_append]

theorem slugFor_beq_empty (c s : String) : (slugFor c s == "") = false := by
  rw [beq_eq_false_iff_ne]
  intro h
  have hd := congrArg String.data h
  rw [slugFor_data] at hd
  exact List.cons_ne_nil _ _ (hd.trans rfl)

theorem trimChars_slugFor_beq_nil (c s : String) :
    (trimChars (slugFor c s).data == []) = false := by
  rw [slugFor_data, beq_eq_false_iff_ne]
  intro h
  unfold trimChars at h
  rw [List.dropWhile_cons, if_neg (by decide : ¬ (isWSChar (Char.ofNat 47) = true))] at h
  have h1 : (('/' :: (c.data ++ '/' :: s.data)).reverse.dropWhile isWSChar) = [] :=
    List.reverse_eq_nil_iff.mp h
  have h2 := List.dropWhile_eq_nil_iff.mp h1
  have h3 : isWSChar '/' = true :=
    h2 '/' (List.mem_reverse.mpr (List.mem_cons_self _ _))
  exact absurd h3 (by decide)

theorem createPage_city_slugFor (env : GenEnv) (st : SEOState) (c s : String) :
    pageBuilderUtils.createPage env st "city" (slugFor c s) =
      .ok (⟨uuidString st.uuidCount, "city", slugFor c s, [], [], [], 1, env.now, "system"⟩,
           { st with uuidCount := st.uuidCount + 1 }) := by
  unfold pageBuilderUtils.createPage
  rw [if_neg (by decide : ¬ ((!(pageTypeEnum.contains "city")) = true))]
  have hB : ¬ ((slugFor c s == "" || trimChars (slugFor c s).data == []) = true) := by
    rw [slugFor_beq_empty, trimChars_slugFor_beq_nil]
    decide
  rw [if_neg hB]

theorem genAI_sections_ok (env : GenEnv) (st : SEOState) (instr : Option String)
    (c s : String) (htr : truthyStr instr = true)
    (haiEn : (env.aiContent.map (fun cfg => cfg.enabled)).getD false = true)
    (htext : env.sectionTypes.contains "text" = true) :
    generateAIContentSections env st instr [("city", c), ("service", s)] =
      .ok ([⟨uuidString st.uuidCount, "text",
             [("intro", ⟨"intro", "text",
               "AI generated content for " ++ c ++ " " ++ s⟩)]⟩],
           { st with uuidCount := st.uuidCount + 1 }) := by
  unfold generateAIContentSections
  rw [htr, haiEn]
  rw [if_neg (by decide : ¬ ((!true || !true) = true))]
  have hc : (lookupReg [("city", c), ("service", s)] "city").getD "undefined" = c := rfl
  have hs : (lookupReg [("city", c), ("service", s)] "service").getD "undefined" = s := rfl
  simp only [pageBuilderUtils.createSection, hc, hs]
  have hB : ¬ ((!env.sectionTypes.contains "text") = true) := by
    rw [htext]
    decide
  rw [if_neg hB]

/-- C1 (counterexample): with two dynamic rules where only the first,
non-generating rule carries instructions, the extracted shared instruction
string is "A", yet the page generated at /sydney/house-cleaning by the
second rule has NO AI sections — generation used the second rule's own
(absent) instructions, not the shared string.  Under the spec-modelled
shared-instructions variant the same page does receive a text section. -/
theorem C1_counterexample :
    (extractProgrammaticSEODetails envC1).aiInstructions = some "A"
    ∧ applyProgrammaticSEO envC1 st0Gen = .ok st1C1
    ∧ lookupReg st1C1.pages (slugFor "sydney" "house-cleaning") = some pgC1
    ∧ pgC1.sections = []
    ∧ applyProgrammaticSEOSpecShared envC1 st0Gen = .ok st1C1s
    ∧ lookupReg st1C1s.pages (slugFor "sydney" "house-cleaning") = some pgC1s
    ∧ pgC1s.sections.map (fun sec => sec.stype) = ["text"] :=
  ⟨rfl, rfl, rfl, rfl, rfl, rfl, rfl⟩

/-- C1 (amended): AI content for a generated page is governed solely by the
generating rule's OWN `aiInstructions` (together with the AI feature flags),
not by a shared instruction string: a fresh (city, service) pair gets one
generated text section when the current rule's instructions are truthy, and
none when they are absent or empty. -/
theorem C1_per_rule_instructions (env : GenEnv) (rule : RouteRuleT)
    (city service : String) (st : SEOState)
    (hfresh : lookupReg st.pages (slugFor city service) = none)
    (henAI : env.enableAIContent = true)
    (haiEn : (env.aiContent.map (fun cfg => cfg.enabled)).getD false = true)
    (htext : env.sectionTypes.contains "text" = true) :
    (truthyStr rule.aiInstructions = true →
      processPair env rule city service st =
        .ok ⟨st.pages ++ [(slugFor city service,
              ⟨uuidString (st.uuidCount + 1), "city", slugFor city service,
               [⟨uuidString st.uuidCount, "text",
                 [("intro", ⟨"intro", "text",
                   "AI generated content for " ++ city ++ " " ++ service⟩)]⟩],
               [], [], 1, env.now, "system"⟩)],
             st.uuidCount + 2⟩)
    ∧ (truthyStr rule.aiInstructions = false →
      processPair env rule city service st =
        .ok ⟨st.pages ++ [(slugFor city service,
              ⟨uuidString st.uuidCount, "city", slugFor city service,
               [], [], [], 1, env.now, "system"⟩)],
             st.uuidCount + 1⟩) := by
  constructor
  · intro htruthy
    simp only [processPair, getPageBySlugIn, hfresh]
    have hcond : (env.enableAIContent
        && ((env.aiContent.map (fun cfg => cfg.enabled)).getD false)
        && truthyStr rule.aiInstructions) = true := by
      rw [henAI, haiEn, htruthy]
      rfl
    rw [if_pos hcond]
    rw [genAI_sections_ok env st rule.aiInstructions city service htruthy haiEn htext]
    simp only []
    rw [createPage_city_slugFor]
    simp only [registerPage, hfresh]
    rfl
  · intro hfalsy
    simp only [processPair, getPageBySlugIn, hfresh]
    have hcond : (env.enableAIContent
        && ((env.aiContent.map (fun cfg => cfg.enabled)).getD false)
        && truthyStr rule.aiInstructions) = false := by
      rw [hfalsy, Bool.and_false]
    rw [if_neg (by rw [hcond]; decide : ¬ (_ = true))]
    simp only []
    rw [createPage_city_slugFor]
    simp only [registerPage, hfresh]
    rfl

/-- Witness for the C1 amended theorem: in the concrete environment, a
locations rule with its own instructions "B" yields a page with one AI text
section, and the instruction-less locations rule yields a page with none. -/
theorem C1_per_rule_witness :
    processPair envC1 ruleW1 "sydney" "house-cleaning" st0Gen =
      .ok ⟨[(slugFor "sydney" "house-cleaning",
            ⟨uuidString 1, "city", slugFor "sydney" "house-cleaning",
             [⟨uuidString 0, "text",
               [("intro", ⟨"intro", "text",
                 "AI generated content for " ++ "sydney" ++ " " ++ "house-cleaning"⟩)]⟩],
             [], [], 1, envC1.now, "system"⟩)], 2⟩
    ∧ processPair envC1 ruleC1b "sydney" "house-cleaning" st0Gen =
      .ok ⟨[(slugFor "sydney" "house-cleaning",
            ⟨uuidString 0, "city", slugFor "sydney" "house-cleaning",
             [], [], [], 1, envC1.now, "system"⟩)], 1⟩ := by
  refine ⟨?_, ?_⟩
  · exact (C1_per_rule_instructions envC1 ruleW1 "sydney" "house-cleaning" st0Gen
      rfl rfl rfl rfl).1 rfl
  · exact (C1_per_rule_instructions envC1 ruleC1b "sydney" "house-cleaning" st0Gen
      rfl rfl rfl rfl).2 rfl
